import Mathlib

/-!
Verification development for the FF2026 backend wallet / tournament-registration
core (file `test-registration.js`).

The embedding models the four Mongo collections (users, tournaments,
transactions, registrations) as association lists / lists inside a `DB` record,
and the monetary amounts (JS numbers used as currency) as integers in minor
units (the fixed-point / integer-minor-unit arithmetic the specification
prescribes for amounts).  Enum-like
string fields of the schemas are kept as strings, as in the source, so that the
string comparisons of the handlers are reproduced verbatim.

The registration handler `app.post(.../register)` is embedded in two phases:
`registerReads` (every `findById`, every validation check and the in-memory
balance split, lines 949-1029 of the source) and `registerWrites` (the
sequence of `save()` calls and the ledger append, lines 1031-1094, including
the duplicate-key catch branch).  `register` runs the two phases back to back
(the sequential behaviour of one request); `registerPair` runs the read phases
of two requests before either write phase, which is a legal interleaving of
the two `async` handler invocations at their `await` suspension points.
-/

abbrev UserId := String
abbrev TId := String

/-- Whitespace trim of both ends, as `String.prototype.trim`. -/
def jsTrim (s : String) : String :=
  ⟨((s.data.dropWhile Char.isWhitespace).reverse.dropWhile Char.isWhitespace).reverse⟩

/-- The test `/^\d+$/.test(s)`: nonempty and every char a decimal digit. -/
def isNumericString (s : String) : Bool :=
  !s.data.isEmpty && s.data.all Char.isDigit

/-- userSchema: the fields of one user document (balances are the embedded
BalanceAccount: `depositAmount`, `winningAmount`). -/
structure User where
  fullname : String
  email : String
  password : String
  mobile : String
  age : Option Int
  state : String
  winningAmount : ℤ
  depositAmount : ℤ
  deriving DecidableEq

/-- tournamentSchema: occupancy and fee fields used by the handlers.
`status` ranges over "upcoming" / "active" / "completed", `mode` over
"clash_squad" / "battle_royal" / "lone_wolf", `teamSize` over
"1vs1" / "2v2" / "4v4" / "6v6" (optional). -/
structure Tournament where
  tournamentId : String
  map : String
  mode : String
  teamSize : Option String
  entryFee : ℤ
  winningFee : ℤ
  maxSlots : Nat
  registeredPlayers : Nat
  startTime : Nat
  status : String
  registeredUsers : List UserId
  deriving DecidableEq

/-- transactionSchema `metadata` subdocument. -/
structure TxMeta where
  tournamentId : Option TId := none
  paymentId : Option String := none
  position : Option Nat := none
  deriving DecidableEq

/-- transactionSchema: one ledger entry.  `type` ranges over
"deposit" / "winning" / "entry_fee" / "withdrawal", `referenceType` over
"payment_id" / "tournament_id" / "withdrawal_id", `status` over
"completed" / "pending" / "failed".  The compound index
`{userId, reference, referenceType}` is unique. -/
structure Transaction where
  userId : UserId
  type : String
  amount : ℤ
  description : String
  reference : String
  referenceType : String
  status : String
  metadata : TxMeta
  deriving DecidableEq

/-- registrationSchema `metadata.userSnapshot`. -/
structure UserSnapshot where
  fullname : String
  email : String
  mobile : String
  age : Option Int
  state : String
  deriving DecidableEq

/-- registrationSchema `metadata.tournamentSnapshot`. -/
structure TournamentSnapshot where
  tournamentId : String
  mode : String
  teamSize : Option String
  map : String
  startTime : Nat
  deriving DecidableEq

/-- registrationSchema `metadata`. -/
structure RegMeta where
  userSnapshot : UserSnapshot
  tournamentSnapshot : TournamentSnapshot
  deriving DecidableEq

/-- registrationSchema: one registration record.  Unique indices:
`{userId, tournamentId}` and `{tournamentId, freeFireId}`. -/
structure Registration where
  userId : UserId
  tournamentId : TId
  tournamentIdString : String
  status : String
  entryFee : ℤ
  paymentMethod : String
  freeFireId : String
  termsAccepted : Bool
  teamSelection : Option String
  metadata : RegMeta
  deriving DecidableEq

/-- The persistent state: the four collections. -/
structure DB where
  users : List (UserId × User)
  tournaments : List (TId × Tournament)
  transactions : List Transaction
  registrations : List Registration
  deriving DecidableEq

/-- Model.findById: lookup by `_id` in a collection keyed by id. -/
def findById {α : Type} (l : List (String × α)) (k : String) : Option α :=
  match l with
  | [] => none
  | p :: ps => if p.1 = k then some p.2 else findById ps k

/-- document.save() for an already-loaded document: replace the document
stored under the id (ids are unique, the first match is the document). -/
def saveById {α : Type} (l : List (String × α)) (k : String) (v : α) : List (String × α) :=
  match l with
  | [] => []
  | p :: ps => if p.1 = k then (k, v) :: ps else p :: saveById ps k v

/-- The Bool form of the ledger dedupe-key match used by
`Transaction.findOne({userId, reference, referenceType})`. -/
def txKeyMatch (tx : Transaction) (userId : UserId) (reference referenceType : String) : Bool :=
  decide (tx.userId = userId ∧ tx.reference = reference ∧ tx.referenceType = referenceType)

/-- Function `logTransaction(userId, type, amount, description, reference,
referenceType, metadata)`: look the dedupe key up first; if an entry exists
return it unchanged, otherwise insert a new completed entry.  In the
sequential embedding the final `transaction.save()` cannot hit the unique
index (the `findOne` above already decided it), so the function is total. -/
def logTransaction (db : DB) (userId : UserId) (type : String) (amount : ℤ)
    (description reference referenceType : String) (metadata : TxMeta) :
    Transaction × DB :=
  match db.transactions.find? (fun tx => txKeyMatch tx userId reference referenceType) with
  | some existingTransaction => (existingTransaction, db)
  | none =>
    let transaction : Transaction :=
      { userId := userId, type := type, amount := amount, description := description,
        reference := reference, referenceType := referenceType,
        status := "completed", metadata := metadata }
    (transaction, { db with transactions := db.transactions ++ [transaction] })

/-- The outcome of the deduction split (lines 1004-1029): the amounts taken
from each sub-balance and the resulting sub-balances. -/
structure Split where
  fromDeposit : ℤ
  fromWinning : ℤ
  depositAfter : ℤ
  winningAfter : ℤ
  deriving DecidableEq

/-- Result type of the deduction policy. -/
inductive SplitResult where
  | insufficientFunds (needed' have' : ℤ)
  | balanceCalculationError
  | ok (split : Split)
  deriving DecidableEq

/-- DeductionPolicy (lines 996-1029): check the total balance, consume the
deposit sub-balance first, draw any remainder from the winning sub-balance;
the final `else` branch is the "Balance calculation error" guard of the
source. -/
def computeSplit (depositAmount winningAmount entryFee : ℤ) : SplitResult :=
  let totalBalance := depositAmount + winningAmount
  if totalBalance < entryFee then .insufficientFunds entryFee totalBalance
  else
    let deductedFromDeposit := if depositAmount ≥ entryFee then entryFee else depositAmount
    let depositAfter := if depositAmount ≥ entryFee then depositAmount - entryFee else 0
    let remainingFee := if depositAmount ≥ entryFee then 0 else entryFee - depositAmount
    if remainingFee > 0 then
      if winningAmount ≥ remainingFee then
        .ok ⟨deductedFromDeposit, remainingFee, depositAfter, winningAmount - remainingFee⟩
      else .balanceCalculationError
    else .ok ⟨deductedFromDeposit, 0, depositAfter, winningAmount⟩

/-- Body of `POST /tournaments/:id/register`: the authenticated user id, the
URL parameter and the three body fields. -/
structure RegRequest where
  tournamentId : TId
  userId : UserId
  freeFireId : Option String
  termsAccepted : Bool
  teamSelection : Option String
  deriving DecidableEq

/-- The distinct responses of the register handler, in source order.
`alreadyRegisteredDuplicate` is the catch branch for Mongo error 11000
("You are already registered for this tournament"); `success` carries the
JSON success payload. -/
inductive RegResponse where
  | tournamentNotFound
  | registrationClosed
  | tournamentFull
  | alreadyRegistered
  | freeFireIdRequired
  | termsRequired
  | freeFireIdNotNumeric
  | teamSelectionRequired
  | userNotFound
  | insufficientBalance (needed' have' : ℤ)
  | balanceCalcError
  | alreadyRegisteredDuplicate
  | serverError
  | success (deductedFromDeposit deductedFromWinning newBalance : ℤ)
      (registrationId : Nat) (teamAssigned : Option String)
  deriving DecidableEq

/-- Whether the response is the success payload. -/
def RegResponse.isSuccess : RegResponse → Bool
  | .success _ _ _ _ _ => true
  | _ => false

/-- Membership of the teamSize field in the duo and squad values 2v2, 4v4, 6v6
(the array-includes test of line 985). -/
def requiresTeamSel (t : Tournament) : Bool :=
  t.teamSize == some "2v2" || t.teamSize == some "4v4" || t.teamSize == some "6v6"

/-- Everything the handler has read or computed before its first write:
the two loaded documents, the trimmed Free Fire id, the team flag, the raw
team selection and the computed split. -/
structure RegSnapshot where
  tournamentKey : TId
  tournament : Tournament
  userId : UserId
  user : User
  freeFireId : String
  requiresTeam : Bool
  teamSelection : Option String
  split : Split
  deriving DecidableEq

/-- Read-and-validate phase of the register handler (lines 949-1029), in
source order: load tournament, status / capacity / membership checks, input
validation, load user, balance check and split computation. -/
def registerReads (db : DB) (rq : RegRequest) : Except RegResponse RegSnapshot :=
  match findById db.tournaments rq.tournamentId with
  | none => .error .tournamentNotFound
  | some tournament =>
    if tournament.status ≠ "upcoming" then .error .registrationClosed
    else if tournament.registeredPlayers ≥ tournament.maxSlots then .error .tournamentFull
    else if rq.userId ∈ tournament.registeredUsers then .error .alreadyRegistered
    else
      match rq.freeFireId with
      | none => .error .freeFireIdRequired
      | some rawFfid =>
        if jsTrim rawFfid = "" then .error .freeFireIdRequired
        else if rq.termsAccepted = false then .error .termsRequired
        else if ¬ isNumericString (jsTrim rawFfid) then .error .freeFireIdNotNumeric
        else
          let requiresTeamSelection := requiresTeamSel tournament
          if requiresTeamSelection ∧
              ¬ (rq.teamSelection = some "team_a" ∨ rq.teamSelection = some "team_b") then
            .error .teamSelectionRequired
          else
            match findById db.users rq.userId with
            | none => .error .userNotFound
            | some user =>
              match computeSplit user.depositAmount user.winningAmount tournament.entryFee with
              | .insufficientFunds needed' have' => .error (.insufficientBalance needed' have')
              | .balanceCalculationError => .error .balanceCalcError
              | .ok split =>
                .ok ⟨rq.tournamentId, tournament, rq.userId, user, jsTrim rawFfid,
                     requiresTeamSelection, rq.teamSelection, split⟩

/-- The condition under which `registration.save()` throws the duplicate-key
error 11000: an existing record violating one of the two unique indices
`{userId, tournamentId}` or `{tournamentId, freeFireId}`. -/
def regSaveConflict (regs : List Registration) (userId : UserId) (tournamentId : TId)
    (freeFireId : String) : Bool :=
  regs.any (fun r =>
    decide ((r.userId = userId ∧ r.tournamentId = tournamentId) ∨
            (r.tournamentId = tournamentId ∧ r.freeFireId = freeFireId)))

/-- The user document after applying a split (line 1011/1016/1023: the
in-memory mutation that the following `user.save()` persists). -/
def userAfterSplit (u : User) (s : Split) : User :=
  { u with depositAmount := s.depositAfter, winningAmount := s.winningAfter }

/-- The tournament document after one admission (lines 1083-1084). -/
def tournamentAfterReg (t : Tournament) (uid : UserId) : Tournament :=
  { t with registeredUsers := t.registeredUsers ++ [uid],
           registeredPlayers := t.registeredPlayers + 1 }

/-- The Registration record built from the snapshot (lines 1053-1078). -/
def regRecordOfSnap (snap : RegSnapshot) : Registration :=
  { userId := snap.userId, tournamentId := snap.tournamentKey,
    tournamentIdString := snap.tournament.tournamentId,
    status := "registered", entryFee := snap.tournament.entryFee,
    paymentMethod := "wallet", freeFireId := snap.freeFireId,
    termsAccepted := true,
    teamSelection := if snap.requiresTeam then snap.teamSelection else none,
    metadata :=
      { userSnapshot :=
          { fullname := snap.user.fullname, email := snap.user.email,
            mobile := snap.user.mobile, age := snap.user.age, state := snap.user.state },
        tournamentSnapshot :=
          { tournamentId := snap.tournament.tournamentId, mode := snap.tournament.mode,
            teamSize := snap.tournament.teamSize, map := snap.tournament.map,
            startTime := snap.tournament.startTime } } }

/-- The state after `user.save()` (line 1032) and the try/catch ledger append
(lines 1035-1050): `txSaveOk = false` injects a storage failure inside the
try, which the handler logs and ignores. -/
def registerMidDB (db : DB) (snap : RegSnapshot) (txSaveOk : Bool) : DB :=
  let db1 : DB := { db with users := saveById db.users snap.userId (userAfterSplit snap.user snap.split) }
  if txSaveOk then
    (logTransaction db1 snap.userId "entry_fee" (-snap.tournament.entryFee)
      ("Entry fee for tournament: " ++ snap.tournament.tournamentId)
      snap.tournamentKey "tournament_id" { tournamentId := some snap.tournamentKey }).2
  else db1

/-- Write phase of the register handler (lines 1031-1094): save the mutated
user balances and append the entry-fee ledger entry (`registerMidDB`),
persist the Registration record (a duplicate-key throw is caught and
answered with the 11000 message, with no compensation of the earlier
writes), then push the user into `registeredUsers`, increment
`registeredPlayers`, save the tournament document and answer with the
success payload. -/
def registerWrites (db : DB) (snap : RegSnapshot) (txSaveOk : Bool) : DB × RegResponse :=
  let db2 : DB := registerMidDB db snap txSaveOk
  if regSaveConflict db2.registrations snap.userId snap.tournamentKey snap.freeFireId then
    (db2, .alreadyRegisteredDuplicate)
  else
    let db3 : DB := { db2 with registrations := db2.registrations ++ [regRecordOfSnap snap] }
    let db4 : DB :=
      { db3 with tournaments :=
          saveById db3.tournaments snap.tournamentKey (tournamentAfterReg snap.tournament snap.userId) }
    (db4, .success snap.split.fromDeposit snap.split.fromWinning
        (snap.split.depositAfter + snap.split.winningAfter) db2.registrations.length
        (if snap.requiresTeam then snap.teamSelection else none))

/-- One sequential run of `POST /tournaments/:id/register`. -/
def register (db : DB) (rq : RegRequest) (txSaveOk : Bool) : DB × RegResponse :=
  match registerReads db rq with
  | .error e => (db, e)
  | .ok snap => registerWrites db snap txSaveOk

/-- An interleaving of two concurrent register calls in which both handlers
complete their awaited reads before either begins its writes (a legal
schedule of the two async invocations). -/
def registerPair (db : DB) (rq1 rq2 : RegRequest) : DB × RegResponse × RegResponse :=
  match registerReads db rq1, registerReads db rq2 with
  | .error e1, .error e2 => (db, e1, e2)
  | .error e1, .ok s2 =>
    let w := registerWrites db s2 true
    (w.1, e1, w.2)
  | .ok s1, .error e2 =>
    let w := registerWrites db s1 true
    (w.1, w.2, e2)
  | .ok s1, .ok s2 =>
    let w1 := registerWrites db s1 true
    let w2 := registerWrites w1.1 s2 true
    (w2.1, w1.2, w2.2)

/-- Sequential execution of a batch of register calls, one after another. -/
def registerAll (db : DB) (rqs : List RegRequest) (txSaveOk : Bool) : DB × List RegResponse :=
  match rqs with
  | [] => (db, [])
  | rq :: rest =>
    let r := register db rq txSaveOk
    let rest' := registerAll r.1 rest txSaveOk
    (rest'.1, r.2 :: rest'.2)

/-- One entry of the `winners` array of `POST /admin/award-winnings`. -/
structure Winner where
  userId : UserId
  amount : ℤ
  position : Nat
  deriving DecidableEq

/-- Per-winner result pushed into `results`. -/
inductive AwardResult where
  | notFound (userId : UserId)
  | success (userId : UserId) (amount newWinningBalance newTotalBalance : ℤ)
  deriving DecidableEq

/-- Response of `POST /admin/award-winnings`. -/
inductive AwardResponse where
  | invalidRequest
  | tournamentNotFound
  | notCompleted
  | processed (results : List AwardResult)
  deriving DecidableEq

/-- Processing of a single winner (lines 1507-1547): load the user (a miss
yields the per-winner failure), credit `winningAmount`, save, and append the
per-winner ledger entry with reference `tournamentId_userId_position`.  The
sequential ledger append is total, so the per-winner catch branch is dead. -/
def awardOne (db : DB) (tournamentId : TId) (tournamentIdString : String) (w : Winner) :
    DB × AwardResult :=
  match findById db.users w.userId with
  | none => (db, .notFound w.userId)
  | some user =>
    let user2 : User := { user with winningAmount := user.winningAmount + w.amount }
    let db1 : DB := { db with users := saveById db.users w.userId user2 }
    let db2 : DB :=
      (logTransaction db1 w.userId "winning" w.amount
        ("Tournament winnings - " ++ tournamentIdString ++ " (Position " ++ toString w.position ++ ")")
        (tournamentId ++ "_" ++ w.userId ++ "_" ++ toString w.position) "tournament_id"
        { tournamentId := some tournamentId, position := some w.position }).2
    (db2, .success w.userId w.amount user2.winningAmount
        (user2.depositAmount + user2.winningAmount))

/-- The `for (const winner of winners)` loop: every winner is processed and
pushes exactly one result. -/
def awardAll (db : DB) (tournamentId : TId) (tournamentIdString : String) :
    List Winner → DB × List AwardResult
  | [] => (db, [])
  | w :: ws =>
    let r := awardOne db tournamentId tournamentIdString w
    let rest := awardAll r.1 tournamentId tournamentIdString ws
    (rest.1, r.2 :: rest.2)

/-- `POST /admin/award-winnings` (lines 1481-1558): validate the body, load
the tournament, require status "completed", then process the winners. -/
def awardWinnings (db : DB) (tournamentId : TId) (winners : List Winner) :
    DB × AwardResponse :=
  if tournamentId = "" then (db, .invalidRequest)
  else
    match findById db.tournaments tournamentId with
    | none => (db, .tournamentNotFound)
    | some tournament =>
      if tournament.status ≠ "completed" then (db, .notCompleted)
      else
        let r := awardAll db tournamentId tournament.tournamentId winners
        (r.1, .processed r.2)

/-- Response of `POST /admin/transactions`. -/
inductive AdminTxResponse where
  | missingFields
  | invalidType
  | userNotFound
  | insufficientBalance
  | created (newBalance : ℤ)
  deriving DecidableEq

/-- `POST /admin/transactions` (lines 1404-1478): required-field truthiness
checks (a zero amount is falsy), the allow-list of types, the balance update
per type ("deposit" and "winning" credit their sub-balance; "entry_fee" and
"withdrawal" deduct `|amount|` deposit-first after a sufficiency check), the
user save and the ledger append with the sign-normalised amount. -/
def adminTransaction (db : DB) (userId : UserId) (type : String) (amount : ℤ)
    (description reference referenceType : String) (metadata : TxMeta) :
    DB × AdminTxResponse :=
  if userId = "" ∨ type = "" ∨ amount = 0 ∨ description = "" ∨ reference = "" ∨ referenceType = "" then
    (db, .missingFields)
  else if ¬ (type = "deposit" ∨ type = "winning" ∨ type = "entry_fee" ∨ type = "withdrawal") then
    (db, .invalidType)
  else
    match findById db.users userId with
    | none => (db, .userNotFound)
    | some user =>
      if type = "deposit" then
        let user2 : User := { user with depositAmount := user.depositAmount + amount }
        let db1 : DB := { db with users := saveById db.users userId user2 }
        let db2 : DB :=
          (logTransaction db1 userId type amount description reference referenceType metadata).2
        (db2, .created (user2.depositAmount + user2.winningAmount))
      else if type = "winning" then
        let user2 : User := { user with winningAmount := user.winningAmount + amount }
        let db1 : DB := { db with users := saveById db.users userId user2 }
        let db2 : DB :=
          (logTransaction db1 userId type amount description reference referenceType metadata).2
        (db2, .created (user2.depositAmount + user2.winningAmount))
      else
        let totalBalance := user.depositAmount + user.winningAmount
        if totalBalance < |amount| then (db, .insufficientBalance)
        else
          let user2 : User :=
            if user.depositAmount ≥ |amount| then
              { user with depositAmount := user.depositAmount - |amount| }
            else
              { user with depositAmount := 0,
                          winningAmount := user.winningAmount - (|amount| - user.depositAmount) }
          let db1 : DB := { db with users := saveById db.users userId user2 }
          let db2 : DB :=
            (logTransaction db1 userId type (-|amount|) description reference referenceType metadata).2
          (db2, .created (user2.depositAmount + user2.winningAmount))

/-- Number of ledger entries carrying a given dedupe key. -/
def txKeyCount (txs : List Transaction) (userId : UserId) (reference referenceType : String) : Nat :=
  (txs.filter (fun tx => txKeyMatch tx userId reference referenceType)).length

/-- The trimmed Free Fire id of a request (empty when the field is absent). -/
def rqFfid (rq : RegRequest) : String := jsTrim (rq.freeFireId.getD "")

/-- The input-validation conditions the handler enforces (lines 970-988),
in propositional form: Free Fire id present with nonempty digits-only trim,
terms accepted, and a valid team selection whenever the tournament requires
teams. -/
def inputOk (t : Tournament) (rq : RegRequest) : Prop :=
  rq.freeFireId ≠ none ∧ rqFfid rq ≠ "" ∧ rq.termsAccepted = true ∧
  isNumericString (rqFfid rq) = true ∧
  (requiresTeamSel t = true → rq.teamSelection = some "team_a" ∨ rq.teamSelection = some "team_b")

/-- The preconditions under which the read phase of a register call reaches
the split computation and succeeds: tournament loaded, upcoming, with a free
seat, the user not yet a member, valid input, the user loaded, and a
sufficient total balance. -/
def RegOk (db : DB) (rq : RegRequest) (t : Tournament) (u : User) : Prop :=
  findById db.tournaments rq.tournamentId = some t ∧
  t.status = "upcoming" ∧
  t.registeredPlayers < t.maxSlots ∧
  rq.userId ∉ t.registeredUsers ∧
  inputOk t rq ∧
  findById db.users rq.userId = some u ∧
  t.entryFee ≤ u.depositAmount + u.winningAmount

instance (t : Tournament) (rq : RegRequest) : Decidable (inputOk t rq) := by
  unfold inputOk
  infer_instance

instance (db : DB) (rq : RegRequest) (t : Tournament) (u : User) :
    Decidable (RegOk db rq t u) := by
  unfold RegOk
  infer_instance

/-- The split actually produced when the balance suffices: deposit first,
remainder from winnings. -/
def splitOf (depositAmount winningAmount entryFee : ℤ) : Split :=
  if depositAmount ≥ entryFee then
    ⟨entryFee, 0, depositAmount - entryFee, winningAmount⟩
  else
    ⟨depositAmount, entryFee - depositAmount, 0, winningAmount - (entryFee - depositAmount)⟩

/-- Every user of a database has non-negative sub-balances. -/
def BalancesNonneg (db : DB) : Prop :=
  ∀ p ∈ db.users, 0 ≤ p.2.depositAmount ∧ 0 ≤ p.2.winningAmount

instance (db : DB) : Decidable (BalancesNonneg db) := by
  unfold BalancesNonneg
  infer_instance

/-- A user document with the given sub-balances (concrete-run fixture). -/
def mkUser (depositAmount winningAmount : ℤ) : User :=
  { fullname := "Test User", email := "test@example.com", password := "hashedpassword",
    mobile := "", age := none, state := "",
    winningAmount := winningAmount, depositAmount := depositAmount }

/-- A clash-squad tournament document (concrete-run fixture). -/
def mkTournament (status : String) (teamSize : Option String) (entryFee : ℤ)
    (maxSlots registeredPlayers : Nat) (registeredUsers : List UserId) : Tournament :=
  { tournamentId := "FF2026", map := "Bermuda", mode := "clash_squad", teamSize := teamSize,
    entryFee := entryFee, winningFee := 100, maxSlots := maxSlots,
    registeredPlayers := registeredPlayers, startTime := 0, status := status,
    registeredUsers := registeredUsers }

/-- The Registration record the handler persists for a validated request. -/
def regRecordOf (rq : RegRequest) (t : Tournament) (u : User) : Registration :=
  { userId := rq.userId, tournamentId := rq.tournamentId,
    tournamentIdString := t.tournamentId, status := "registered",
    entryFee := t.entryFee, paymentMethod := "wallet",
    freeFireId := rqFfid rq, termsAccepted := true,
    teamSelection := if requiresTeamSel t then rq.teamSelection else none,
    metadata :=
      { userSnapshot :=
          { fullname := u.fullname, email := u.email, mobile := u.mobile,
            age := u.age, state := u.state },
        tournamentSnapshot :=
          { tournamentId := t.tournamentId, mode := t.mode, teamSize := t.teamSize,
            map := t.map, startTime := t.startTime } } }

/-- Fixture: the request user u1 used to create the prior registration of
the C1 scenario. -/
def rqC1prior : RegRequest := ⟨"t1", "u1", some "777", true, none⟩

/-- Fixture for the C1 scenario: user u1 already holds a registration for
tournament t1 with Free Fire id 777; user u2 has balances (30, 20) and is
not yet registered; the entry fee is 40. -/
def dbC1 : DB :=
  ⟨[("u1", mkUser 100 0), ("u2", mkUser 30 20)],
   [("t1", mkTournament "upcoming" (some "1vs1") 40 10 1 ["u1"])],
   [],
   [regRecordOf rqC1prior (mkTournament "upcoming" (some "1vs1") 40 10 1 ["u1"]) (mkUser 100 0)]⟩

/-- Fixture: u2 registering for t1 with the Free Fire id u1 already used. -/
def rqC1 : RegRequest := ⟨"t1", "u2", some "777", true, none⟩

/-- Fixture: a tournament whose status is "active" (registration closed). -/
def dbC4 : DB :=
  ⟨[("u1", mkUser 50 0)], [("t4", mkTournament "active" (some "1vs1") 10 10 0 [])], [], []⟩

/-- Fixture request against the closed tournament. -/
def rqC4 : RegRequest := ⟨"t4", "u1", some "123", true, none⟩

/-- Fixture: one solo tournament with a free seat and one funded user. -/
def dbReg : DB :=
  ⟨[("u1", mkUser 30 20)], [("t1", mkTournament "upcoming" (some "1vs1") 40 10 0 [])], [], []⟩

/-- Fixture: a valid request that also supplies a team selection the solo
tournament does not require. -/
def rqReg : RegRequest := ⟨"t1", "u1", some "555", true, some "team_a"⟩

/-- Fixture: the same solo tournament with a user holding zero balances. -/
def dbPoor : DB :=
  ⟨[("u1", mkUser 0 0)], [("t1", mkTournament "upcoming" (some "1vs1") 40 10 0 [])], [], []⟩

/-- Fixture for C5: a completed tournament and a user with zero balances. -/
def dbC5 : DB :=
  ⟨[("w1", mkUser 0 0)], [("t5", mkTournament "completed" (some "1vs1") 10 48 0 [])], [], []⟩

/-- Fixture for C5: a user for the admin-transaction conjunct. -/
def dbAdmin : DB := ⟨[("u1", mkUser 10 5)], [], [], []⟩

/-- Fixture for C7: users w1 and w3 exist, w2 does not. -/
def dbC7 : DB :=
  ⟨[("w1", mkUser 0 10), ("w3", mkUser 5 0)],
   [("t7", mkTournament "completed" (some "1vs1") 10 48 0 [])], [], []⟩

/-- Fixture for C7: three winners, the second referencing a missing user. -/
def winnersC7 : List Winner := [⟨"w1", 100, 1⟩, ⟨"wX", 50, 2⟩, ⟨"w3", 25, 3⟩]

/-- Fixture for C8: an upcoming solo tournament and a funded user. -/
def dbC8 : DB :=
  ⟨[("u1", mkUser 10 0)], [("t8", mkTournament "upcoming" (some "1vs1") 10 10 0 [])], [], []⟩

/-- Fixture for C8: Free Fire id "0" (digits but not a positive integer)
and a team selection supplied for a solo tournament. -/
def rqC8 : RegRequest := ⟨"t8", "u1", some "0", true, some "team_a"⟩

/-- Fixture for the C8 amended witness: terms not accepted. -/
def rqC8w : RegRequest := ⟨"t8", "u1", some "123", false, none⟩

/-- Fixture for C9: a one-slot tournament and two funded users. -/
def dbC9 : DB :=
  ⟨[("u1", mkUser 10 0), ("u2", mkUser 10 0)],
   [("t9", mkTournament "upcoming" (some "1vs1") 10 1 0 [])], [], []⟩

/-- Fixture: first concurrent request against the one-slot tournament. -/
def rqC9a : RegRequest := ⟨"t9", "u1", some "111", true, none⟩

/-- Fixture: second concurrent request against the one-slot tournament. -/
def rqC9b : RegRequest := ⟨"t9", "u2", some "222", true, none⟩

/-- Fixture for the C9 amended witness: a two-slot tournament and three
funded users. -/
def dbC9w : DB :=
  ⟨[("u1", mkUser 10 0), ("u2", mkUser 10 0), ("u3", mkUser 10 0)],
   [("t9", mkTournament "upcoming" (some "1vs1") 10 2 0 [])], [], []⟩

/-- Fixture: third sequential request for the two-slot tournament. -/
def rqC9c : RegRequest := ⟨"t9", "u3", some "333", true, none⟩


theorem findById_saveById_self {α : Type} (l : List (String × α)) (k : String) (v v' : α)
    (h : findById l k = some v) : findById (saveById l k v') k = some v' := by
  induction l with
  | nil => simp [findById] at h
  | cons p ps ih =>
    by_cases hk : p.1 = k
    · simp [findById, saveById, hk]
    · simp [findById, saveById, hk] at h ⊢
      exact ih h

theorem findById_saveById_ne {α : Type} (l : List (String × α)) (k k' : String) (v : α)
    (h : k' ≠ k) : findById (saveById l k v) k' = findById l k' := by
  induction l with
  | nil => simp [saveById]
  | cons p ps ih =>
    by_cases hk : p.1 = k
    · simp [findById, saveById, hk, Ne.symm h]
    · simp [findById, saveById, hk]
      by_cases hk' : p.1 = k'
      · simp [hk']
      · simp [hk', ih]

theorem mem_of_findById {α : Type} {l : List (String × α)} {k : String} {v : α}
    (h : findById l k = some v) : (k, v) ∈ l := by
  induction l with
  | nil => simp [findById] at h
  | cons p ps ih =>
    by_cases hk : p.1 = k
    · simp only [findById, hk, if_pos] at h
      cases h
      have hp : (k, p.2) = p := by rw [← hk]
      rw [hp]
      exact List.mem_cons_self _ _
    · simp only [findById, hk, if_neg, not_false_iff] at h
      right
      exact ih h

theorem computeSplit_of_sufficient {d w fee : ℤ} (h : fee ≤ d + w) :
    computeSplit d w fee = .ok (splitOf d w fee) := by
  unfold computeSplit splitOf
  rcases le_or_lt fee d with hd | hd
  · rw [if_neg (not_lt.mpr h)]
    simp only [ge_iff_le, if_pos hd]
    rw [if_neg (lt_irrefl 0)]
  · rw [if_neg (not_lt.mpr h)]
    simp only [ge_iff_le, if_neg (not_le.mpr hd)]
    rw [if_pos (by linarith), if_pos (by linarith)]

theorem computeSplit_insufficient {d w fee : ℤ} (h : d + w < fee) :
    computeSplit d w fee = .insufficientFunds fee (d + w) := by
  unfold computeSplit
  rw [if_pos h]

theorem logTransaction_users (db : DB) (userId : UserId) (type : String) (amount : ℤ)
    (description reference referenceType : String) (metadata : TxMeta) :
    (logTransaction db userId type amount description reference referenceType metadata).2.users
      = db.users := by
  unfold logTransaction
  split <;> rfl

theorem logTransaction_tournaments (db : DB) (userId : UserId) (type : String) (amount : ℤ)
    (description reference referenceType : String) (metadata : TxMeta) :
    (logTransaction db userId type amount description reference referenceType metadata).2.tournaments
      = db.tournaments := by
  unfold logTransaction
  split <;> rfl

theorem logTransaction_registrations (db : DB) (userId : UserId) (type : String) (amount : ℤ)
    (description reference referenceType : String) (metadata : TxMeta) :
    (logTransaction db userId type amount description reference referenceType metadata).2.registrations
      = db.registrations := by
  unfold logTransaction
  split <;> rfl

theorem registerMidDB_users (db : DB) (snap : RegSnapshot) (txSaveOk : Bool) :
    (registerMidDB db snap txSaveOk).users
      = saveById db.users snap.userId (userAfterSplit snap.user snap.split) := by
  unfold registerMidDB
  cases txSaveOk
  · rfl
  · rw [if_pos rfl, logTransaction_users]

theorem registerMidDB_tournaments (db : DB) (snap : RegSnapshot) (txSaveOk : Bool) :
    (registerMidDB db snap txSaveOk).tournaments = db.tournaments := by
  unfold registerMidDB
  cases txSaveOk
  · rfl
  · rw [if_pos rfl, logTransaction_tournaments]

theorem registerMidDB_registrations (db : DB) (snap : RegSnapshot) (txSaveOk : Bool) :
    (registerMidDB db snap txSaveOk).registrations = db.registrations := by
  unfold registerMidDB
  cases txSaveOk
  · rfl
  · rw [if_pos rfl, logTransaction_registrations]

theorem registerMidDB_transactions_of_skip (db : DB) (snap : RegSnapshot) :
    (registerMidDB db snap false).transactions = db.transactions := rfl

theorem registerWrites_snd (db : DB) (snap : RegSnapshot) (txSaveOk : Bool) :
    (registerWrites db snap txSaveOk).2 = .alreadyRegisteredDuplicate ∨
    ((registerWrites db snap txSaveOk).2).isSuccess = true := by
  unfold registerWrites
  dsimp only
  by_cases hc : regSaveConflict (registerMidDB db snap txSaveOk).registrations
      snap.userId snap.tournamentKey snap.freeFireId = true
  · rw [if_pos hc]
    left
    rfl
  · rw [if_neg hc]
    right
    rfl

theorem register_db_of_error {db : DB} {rq : RegRequest} {txSaveOk : Bool} {db' : DB}
    {e : RegResponse} (h : register db rq txSaveOk = (db', e))
    (he : e.isSuccess = false) (hd : e ≠ .alreadyRegisteredDuplicate) : db' = db := by
  unfold register at h
  cases hr : registerReads db rq with
  | error e' =>
    rw [hr] at h
    cases h
    rfl
  | ok snap =>
    rw [hr] at h
    have h2 : registerWrites db snap txSaveOk = (db', e) := h
    rcases registerWrites_snd db snap txSaveOk with hw | hw
    · rw [h2] at hw
      exact absurd hw hd
    · rw [h2] at hw
      rw [he] at hw
      cases hw

theorem find?_append_none {α : Type} {p : α → Bool} {l₁ l₂ : List α}
    (h : l₁.find? p = none) : (l₁ ++ l₂).find? p = l₂.find? p := by
  induction l₁ with
  | nil => rfl
  | cons a as ih =>
    cases hpa : p a
    · simp only [List.find?, hpa] at h ⊢
      exact ih h
    · simp only [List.find?, hpa] at h
      cases h

theorem txKeyCount_append (l₁ l₂ : List Transaction) (userId : UserId)
    (reference referenceType : String) :
    txKeyCount (l₁ ++ l₂) userId reference referenceType
      = txKeyCount l₁ userId reference referenceType
        + txKeyCount l₂ userId reference referenceType := by
  unfold txKeyCount
  rw [List.filter_append, List.length_append]

/-- C3: the ledger append is idempotent on the (userId, reference,
referenceType) key.  For every state whose ledger holds at most one entry
with the key (the schema-level unique index), after two `logTransaction`
calls with an identical key exactly one entry with the key is stored, the
second call returns the entry the first call returned, unchanged, and the
second call changes nothing at all (in particular no user balance). -/
theorem claim_C3 (db : DB) (userId : UserId) (reference referenceType : String)
    (type1 type2 : String) (amount1 amount2 : ℤ) (descr1 descr2 : String)
    (md1 md2 : TxMeta)
    (hkey : txKeyCount db.transactions userId reference referenceType ≤ 1) :
    txKeyCount (logTransaction
        (logTransaction db userId type1 amount1 descr1 reference referenceType md1).2
        userId type2 amount2 descr2 reference referenceType md2).2.transactions
        userId reference referenceType = 1 ∧
    (logTransaction (logTransaction db userId type1 amount1 descr1 reference referenceType md1).2
        userId type2 amount2 descr2 reference referenceType md2).1
      = (logTransaction db userId type1 amount1 descr1 reference referenceType md1).1 ∧
    (logTransaction (logTransaction db userId type1 amount1 descr1 reference referenceType md1).2
        userId type2 amount2 descr2 reference referenceType md2).2
      = (logTransaction db userId type1 amount1 descr1 reference referenceType md1).2 := by
  cases h : db.transactions.find? (fun tx => txKeyMatch tx userId reference referenceType) with
  | some e =>
    have h1 : logTransaction db userId type1 amount1 descr1 reference referenceType md1 = (e, db) := by
      unfold logTransaction
      rw [h]
    have h2 : logTransaction db userId type2 amount2 descr2 reference referenceType md2 = (e, db) := by
      unfold logTransaction
      rw [h]
    have h12 : (logTransaction db userId type1 amount1 descr1 reference referenceType md1).2 = db := by
      rw [h1]
    have h11 : (logTransaction db userId type1 amount1 descr1 reference referenceType md1).1 = e := by
      rw [h1]
    have hmem : e ∈ db.transactions := List.mem_of_find?_eq_some h
    have hpe : txKeyMatch e userId reference referenceType = true := by
      simpa using List.find?_some h
    have hfmem : e ∈ db.transactions.filter (fun tx => txKeyMatch tx userId reference referenceType) :=
      List.mem_filter.mpr ⟨hmem, hpe⟩
    have hge : 1 ≤ txKeyCount db.transactions userId reference referenceType := by
      unfold txKeyCount
      exact List.length_pos.mpr (List.ne_nil_of_mem hfmem)
    have hcount : txKeyCount db.transactions userId reference referenceType = 1 := by omega
    rw [h12, h2, h11]
    exact ⟨hcount, rfl, rfl⟩
  | none =>
    have h1 : logTransaction db userId type1 amount1 descr1 reference referenceType md1
        = ({ userId := userId, type := type1, amount := amount1, description := descr1,
             reference := reference, referenceType := referenceType,
             status := "completed", metadata := md1 },
           { db with transactions := db.transactions ++
              [{ userId := userId, type := type1, amount := amount1, description := descr1,
                 reference := reference, referenceType := referenceType,
                 status := "completed", metadata := md1 }] }) := by
      unfold logTransaction
      rw [h]
    have hptx : txKeyMatch
        { userId := userId, type := type1, amount := amount1, description := descr1,
          reference := reference, referenceType := referenceType,
          status := "completed", metadata := md1 : Transaction } userId reference referenceType
          = true := by
      unfold txKeyMatch
      simp
    have h2 : (db.transactions ++
        [{ userId := userId, type := type1, amount := amount1, description := descr1,
           reference := reference, referenceType := referenceType,
           status := "completed", metadata := md1 : Transaction }]).find?
          (fun tx => txKeyMatch tx userId reference referenceType)
        = some { userId := userId, type := type1, amount := amount1, description := descr1,
                 reference := reference, referenceType := referenceType,
                 status := "completed", metadata := md1 } := by
      rw [find?_append_none h]
      simp only [List.find?, hptx]
    rw [h1]
    have h3 : logTransaction
        { db with transactions := db.transactions ++
            [{ userId := userId, type := type1, amount := amount1, description := descr1,
               reference := reference, referenceType := referenceType,
               status := "completed", metadata := md1 }] }
        userId type2 amount2 descr2 reference referenceType md2
        = ({ userId := userId, type := type1, amount := amount1, description := descr1,
             reference := reference, referenceType := referenceType,
             status := "completed", metadata := md1 },
           { db with transactions := db.transactions ++
              [{ userId := userId, type := type1, amount := amount1, description := descr1,
                 reference := reference, referenceType := referenceType,
                 status := "completed", metadata := md1 }] }) := by
      unfold logTransaction
      rw [h2]
    rw [h3]
    refine ⟨?_, rfl, rfl⟩
    have h0 : txKeyCount db.transactions userId reference referenceType = 0 := by
      unfold txKeyCount
      rw [List.filter_eq_nil_iff.mpr]
      · rfl
      · intro a ha
        exact List.find?_eq_none.mp h a ha
    rw [txKeyCount_append, h0]
    unfold txKeyCount
    simp only [List.filter, hptx]
    rfl

/-- Witness for C3: two appends of the same tournament entry-fee key into an
empty ledger. -/
theorem claim_C3_witness :
    txKeyCount (⟨[], [], [], []⟩ : DB).transactions "u1" "t1" "tournament_id" ≤ 1 ∧
    txKeyCount (logTransaction
        (logTransaction (⟨[], [], [], []⟩ : DB) "u1" "entry_fee" (-40) "fee" "t1" "tournament_id" {}).2
        "u1" "entry_fee" (-40) "fee" "t1" "tournament_id" {}).2.transactions
        "u1" "t1" "tournament_id" = 1 :=
  ⟨by decide,
   (claim_C3 (⟨[], [], [], []⟩ : DB) "u1" "t1" "tournament_id" "entry_fee" "entry_fee"
      (-40) (-40) "fee" "fee" {} {} (by decide)).1⟩

theorem registerReads_ok {db : DB} {rq : RegRequest} {t : Tournament} {u : User}
    (h : RegOk db rq t u) :
    registerReads db rq = .ok ⟨rq.tournamentId, t, rq.userId, u, rqFfid rq,
      requiresTeamSel t, rq.teamSelection,
      splitOf u.depositAmount u.winningAmount t.entryFee⟩ := by
  obtain ⟨hT, hst, hfull, hmem, hinput, hU, hbal⟩ := h
  obtain ⟨hffne, htrim, hterms, hnum, hteam⟩ := hinput
  obtain ⟨raw, hraw⟩ := Option.ne_none_iff_exists'.mp hffne
  have hraw2 : rqFfid rq = jsTrim raw := by
    rw [rqFfid, hraw]
    rfl
  rw [hraw2] at htrim hnum
  unfold registerReads
  simp only [hT, hraw, hU]
  rw [if_neg (by simp [hst])]
  rw [if_neg (by omega)]
  rw [if_neg hmem]
  rw [if_neg htrim]
  rw [if_neg (by simp [hterms])]
  rw [if_neg (by simp [hnum])]
  rw [if_neg (by
    intro hcon
    exact hcon.2 (hteam hcon.1))]
  rw [computeSplit_of_sufficient hbal]
  rw [hraw2]

theorem registerReads_closed {db : DB} {rq : RegRequest} {t : Tournament}
    (hT : findById db.tournaments rq.tournamentId = some t)
    (hst : t.status ≠ "upcoming") :
    registerReads db rq = .error .registrationClosed := by
  unfold registerReads
  simp only [hT]
  rw [if_pos hst]

theorem registerReads_full {db : DB} {rq : RegRequest} {t : Tournament}
    (hT : findById db.tournaments rq.tournamentId = some t)
    (hst : t.status = "upcoming") (hge : t.maxSlots ≤ t.registeredPlayers) :
    registerReads db rq = .error .tournamentFull := by
  unfold registerReads
  simp only [hT]
  rw [if_neg (by simp [hst]), if_pos hge]

theorem registerReads_already {db : DB} {rq : RegRequest} {t : Tournament}
    (hT : findById db.tournaments rq.tournamentId = some t)
    (hst : t.status = "upcoming") (hlt : t.registeredPlayers < t.maxSlots)
    (hmem : rq.userId ∈ t.registeredUsers) :
    registerReads db rq = .error .alreadyRegistered := by
  unfold registerReads
  simp only [hT]
  rw [if_neg (by simp [hst]), if_neg (by omega), if_pos hmem]

theorem register_of_reads_error {db : DB} {rq : RegRequest} {e : RegResponse} (txSaveOk : Bool)
    (h : registerReads db rq = .error e) : register db rq txSaveOk = (db, e) := by
  unfold register
  rw [h]

theorem registerWrites_conflict (db : DB) (snap : RegSnapshot) (txSaveOk : Bool)
    (hc : regSaveConflict db.registrations snap.userId snap.tournamentKey snap.freeFireId = true) :
    registerWrites db snap txSaveOk = (registerMidDB db snap txSaveOk, .alreadyRegisteredDuplicate) := by
  unfold registerWrites
  dsimp only
  rw [registerMidDB_registrations]
  rw [if_pos hc]

theorem registerWrites_no_conflict (db : DB) (snap : RegSnapshot) (txSaveOk : Bool)
    (hc : regSaveConflict db.registrations snap.userId snap.tournamentKey snap.freeFireId = false) :
    registerWrites db snap txSaveOk =
      ({ users := (registerMidDB db snap txSaveOk).users,
         tournaments := saveById (registerMidDB db snap txSaveOk).tournaments snap.tournamentKey
           (tournamentAfterReg snap.tournament snap.userId),
         transactions := (registerMidDB db snap txSaveOk).transactions,
         registrations := (registerMidDB db snap txSaveOk).registrations ++ [regRecordOfSnap snap] },
       .success snap.split.fromDeposit snap.split.fromWinning
         (snap.split.depositAfter + snap.split.winningAfter)
         db.registrations.length
         (if snap.requiresTeam then snap.teamSelection else none)) := by
  unfold registerWrites
  dsimp only
  rw [registerMidDB_registrations]
  rw [if_neg (by simp [hc])]

theorem register_success {db : DB} {rq : RegRequest} {t : Tournament} {u : User} (txSaveOk : Bool)
    (h : RegOk db rq t u)
    (hconf : regSaveConflict db.registrations rq.userId rq.tournamentId (rqFfid rq) = false) :
    ∃ db', register db rq txSaveOk =
        (db', .success (splitOf u.depositAmount u.winningAmount t.entryFee).fromDeposit
          (splitOf u.depositAmount u.winningAmount t.entryFee).fromWinning
          ((splitOf u.depositAmount u.winningAmount t.entryFee).depositAfter
            + (splitOf u.depositAmount u.winningAmount t.entryFee).winningAfter)
          db.registrations.length
          (if requiresTeamSel t then rq.teamSelection else none)) ∧
      db'.users = saveById db.users rq.userId
        (userAfterSplit u (splitOf u.depositAmount u.winningAmount t.entryFee)) ∧
      db'.tournaments = saveById db.tournaments rq.tournamentId (tournamentAfterReg t rq.userId) ∧
      db'.registrations = db.registrations ++ [regRecordOf rq t u] ∧
      (txSaveOk = false → db'.transactions = db.transactions) := by
  have hr := registerReads_ok h
  have hw := registerWrites_no_conflict db
    ⟨rq.tournamentId, t, rq.userId, u, rqFfid rq, requiresTeamSel t, rq.teamSelection,
      splitOf u.depositAmount u.winningAmount t.entryFee⟩ txSaveOk hconf
  have hreg : register db rq txSaveOk =
      registerWrites db ⟨rq.tournamentId, t, rq.userId, u, rqFfid rq, requiresTeamSel t,
        rq.teamSelection, splitOf u.depositAmount u.winningAmount t.entryFee⟩ txSaveOk := by
    unfold register
    rw [hr]
  rw [hreg, hw]
  rw [registerMidDB_users, registerMidDB_tournaments, registerMidDB_registrations]
  refine ⟨_, rfl, rfl, rfl, rfl, ?_⟩
  intro hf
  subst hf
  exact registerMidDB_transactions_of_skip db
    ⟨rq.tournamentId, t, rq.userId, u, rqFfid rq, requiresTeamSel t, rq.teamSelection,
      splitOf u.depositAmount u.winningAmount t.entryFee⟩

theorem registerReads_insufficient {db : DB} {rq : RegRequest} {t : Tournament} {u : User}
    (hT : findById db.tournaments rq.tournamentId = some t)
    (hst : t.status = "upcoming") (hfull : t.registeredPlayers < t.maxSlots)
    (hmem : rq.userId ∉ t.registeredUsers) (hinput : inputOk t rq)
    (hU : findById db.users rq.userId = some u)
    (hbal : u.depositAmount + u.winningAmount < t.entryFee) :
    registerReads db rq
      = .error (.insufficientBalance t.entryFee (u.depositAmount + u.winningAmount)) := by
  obtain ⟨hffne, htrim, hterms, hnum, hteam⟩ := hinput
  obtain ⟨raw, hraw⟩ := Option.ne_none_iff_exists'.mp hffne
  have hraw2 : rqFfid rq = jsTrim raw := by
    rw [rqFfid, hraw]
    rfl
  rw [hraw2] at htrim hnum
  unfold registerReads
  simp only [hT, hraw, hU]
  rw [if_neg (by simp [hst])]
  rw [if_neg (by omega)]
  rw [if_neg hmem]
  rw [if_neg htrim]
  rw [if_neg (by simp [hterms])]
  rw [if_neg (by simp [hnum])]
  rw [if_neg (by
    intro hcon
    exact hcon.2 (hteam hcon.1))]
  rw [computeSplit_insufficient hbal]

/-- C2: for non-negative deposit `d`, winning `w` and fee `f`, the deduction
split drawn during registration takes `min d f` from the deposit sub-balance
and the remainder `f - min d f` from the winning sub-balance whenever
`d + w >= f` (both outputs zero when `f = 0`); when `d + w < f` the policy
fails with the insufficient-funds outcome carrying the required and
available totals and the register call answers with the
insufficient-balance error; and every register call answering with the
insufficient-balance error leaves the state (hence both balances)
unchanged. -/
theorem claim_C2 (d w f : ℤ) (hd : 0 ≤ d) (hw : 0 ≤ w) (hf : 0 ≤ f) :
    (f ≤ d + w →
      computeSplit d w f = .ok ⟨min d f, f - min d f, d - min d f, w - (f - min d f)⟩) ∧
    (f = 0 → computeSplit d w f = .ok ⟨0, 0, d, w⟩) ∧
    (d + w < f → computeSplit d w f = .insufficientFunds f (d + w)) ∧
    (∀ (db db' : DB) (rq : RegRequest) (txSaveOk : Bool) (needed' have' : ℤ),
      register db rq txSaveOk = (db', .insufficientBalance needed' have') → db' = db) ∧
    (∀ (db : DB) (rq : RegRequest) (txSaveOk : Bool) (t : Tournament) (u : User),
      findById db.tournaments rq.tournamentId = some t → t.status = "upcoming" →
      t.registeredPlayers < t.maxSlots → rq.userId ∉ t.registeredUsers → inputOk t rq →
      findById db.users rq.userId = some u →
      u.depositAmount = d → u.winningAmount = w → t.entryFee = f → d + w < f →
      register db rq txSaveOk = (db, .insufficientBalance f (d + w))) := by
  refine ⟨?_, ?_, ?_, ?_, ?_⟩
  · intro h
    rw [computeSplit_of_sufficient h]
    unfold splitOf
    rcases le_or_lt f d with hfd | hfd
    · rw [if_pos hfd, min_eq_right hfd]
      simp
    · rw [if_neg (not_le.mpr hfd), min_eq_left (le_of_lt hfd)]
      simp
  · intro h
    subst h
    rw [computeSplit_of_sufficient (by linarith)]
    unfold splitOf
    rw [if_pos hd]
    simp
  · exact computeSplit_insufficient
  · intro db db' rq txSaveOk needed' have' h
    exact register_db_of_error h rfl (by intro hx; cases hx)
  · intro db rq txSaveOk t u hT hst hfull hmem hinput hU hdep hwin hfee hlt
    subst hdep
    subst hwin
    subst hfee
    exact register_of_reads_error txSaveOk
      (registerReads_insufficient hT hst hfull hmem hinput hU hlt)

/-- Witness for C2 at the end-to-end numbers of the specification: deposit
30, winnings 20, fee 40 for the split; and the zero-balance user rejected
with the insufficient-balance error for fee 40. -/
theorem claim_C2_witness :
    (0:ℤ) ≤ 30 ∧ (0:ℤ) ≤ 20 ∧ (0:ℤ) ≤ 40 ∧ (40:ℤ) ≤ 30 + 20 ∧
    computeSplit 30 20 40 =
      .ok ⟨min 30 40, 40 - min 30 40, 30 - min 30 40, 20 - (40 - min 30 40)⟩ ∧
    register dbPoor rqReg true = (dbPoor, .insufficientBalance 40 (0 + 0)) :=
  ⟨by norm_num, by norm_num, by norm_num, by norm_num,
    (claim_C2 30 20 40 (by norm_num) (by norm_num) (by norm_num)).1 (by norm_num),
    (claim_C2 0 0 40 (by norm_num) (by norm_num) (by norm_num)).2.2.2.2 dbPoor rqReg true
      (mkTournament "upcoming" (some "1vs1") 40 10 0 []) (mkUser 0 0) (by decide) (by decide)
      (by decide) (by decide) (by decide) (by decide) (by decide) (by decide) (by decide)
      (by decide)⟩

/-- C4: given the loaded tournament document, a register call is rejected
with the closed error when status is not "upcoming"; with the full error
when (status being "upcoming") `registeredPlayers >= maxSlots`; with the
already-registered error when (the previous two checks passing) the caller
is in `registeredUsers`; and a caller already in `registeredUsers` is always
rejected with one of those three errors.  In each case the returned state is
the unmodified input state: no balance deduction, no ledger entry, no
registration record. -/
theorem claim_C4 (db : DB) (rq : RegRequest) (txSaveOk : Bool) (t : Tournament)
    (hT : findById db.tournaments rq.tournamentId = some t) :
    (t.status ≠ "upcoming" → register db rq txSaveOk = (db, .registrationClosed)) ∧
    (t.status = "upcoming" → t.maxSlots ≤ t.registeredPlayers →
      register db rq txSaveOk = (db, .tournamentFull)) ∧
    (t.status = "upcoming" → t.registeredPlayers < t.maxSlots →
      rq.userId ∈ t.registeredUsers → register db rq txSaveOk = (db, .alreadyRegistered)) ∧
    (rq.userId ∈ t.registeredUsers → ∃ e, register db rq txSaveOk = (db, e) ∧
      (e = .registrationClosed ∨ e = .tournamentFull ∨ e = .alreadyRegistered)) := by
  refine ⟨?_, ?_, ?_, ?_⟩
  · intro hst
    exact register_of_reads_error txSaveOk (registerReads_closed hT hst)
  · intro hst hge
    exact register_of_reads_error txSaveOk (registerReads_full hT hst hge)
  · intro hst hlt hmem
    exact register_of_reads_error txSaveOk (registerReads_already hT hst hlt hmem)
  · intro hmem
    by_cases hst : t.status = "upcoming"
    · by_cases hge : t.maxSlots ≤ t.registeredPlayers
      · exact ⟨.tournamentFull,
          register_of_reads_error txSaveOk (registerReads_full hT hst hge), Or.inr (Or.inl rfl)⟩
      · exact ⟨.alreadyRegistered,
          register_of_reads_error txSaveOk (registerReads_already hT hst (by omega) hmem),
          Or.inr (Or.inr rfl)⟩
    · exact ⟨.registrationClosed,
        register_of_reads_error txSaveOk (registerReads_closed hT hst), Or.inl rfl⟩

theorem registerReads_ok_inv {db : DB} {rq : RegRequest} {snap : RegSnapshot}
    (h : registerReads db rq = .ok snap) :
    snap.tournamentKey = rq.tournamentId ∧
    findById db.tournaments rq.tournamentId = some snap.tournament ∧
    snap.userId = rq.userId ∧
    findById db.users rq.userId = some snap.user ∧
    snap.requiresTeam = requiresTeamSel snap.tournament ∧
    snap.teamSelection = rq.teamSelection ∧
    computeSplit snap.user.depositAmount snap.user.winningAmount snap.tournament.entryFee
      = .ok snap.split := by
  unfold registerReads at h
  rcases hT : findById db.tournaments rq.tournamentId with _ | t
  all_goals simp only [hT] at h
  · cases h
  by_cases h1 : t.status ≠ "upcoming"
  · rw [if_pos h1] at h
    cases h
  rw [if_neg h1] at h
  by_cases h2 : t.registeredPlayers ≥ t.maxSlots
  · rw [if_pos h2] at h
    cases h
  rw [if_neg h2] at h
  by_cases h3 : rq.userId ∈ t.registeredUsers
  · rw [if_pos h3] at h
    cases h
  rw [if_neg h3] at h
  rcases hF : rq.freeFireId with _ | raw
  all_goals simp only [hF] at h
  · cases h
  by_cases h4 : jsTrim raw = ""
  · rw [if_pos h4] at h
    cases h
  rw [if_neg h4] at h
  by_cases h5 : rq.termsAccepted = false
  · rw [if_pos h5] at h
    cases h
  rw [if_neg h5] at h
  by_cases h6 : ¬ isNumericString (jsTrim raw)
  · rw [if_pos h6] at h
    cases h
  rw [if_neg h6] at h
  by_cases h7 : requiresTeamSel t ∧
      ¬ (rq.teamSelection = some "team_a" ∨ rq.teamSelection = some "team_b")
  · rw [if_pos h7] at h
    cases h
  rw [if_neg h7] at h
  rcases hU : findById db.users rq.userId with _ | u
  all_goals simp only [hU] at h
  · cases h
  cases hS : computeSplit u.depositAmount u.winningAmount t.entryFee with
  | insufficientFunds n hv =>
    simp only [hS] at h
    cases h
  | balanceCalculationError =>
    simp only [hS] at h
    cases h
  | ok s =>
    simp only [hS] at h
    cases h
    exact ⟨rfl, rfl, rfl, rfl, rfl, rfl, hS⟩

theorem registerReads_error_not_success {db : DB} {rq : RegRequest} {e : RegResponse}
    (h : registerReads db rq = .error e) : e.isSuccess = false := by
  unfold registerReads at h
  rcases hT : findById db.tournaments rq.tournamentId with _ | t
  all_goals simp only [hT] at h
  · cases h
    rfl
  by_cases h1 : t.status ≠ "upcoming"
  · rw [if_pos h1] at h
    cases h
    rfl
  rw [if_neg h1] at h
  by_cases h2 : t.registeredPlayers ≥ t.maxSlots
  · rw [if_pos h2] at h
    cases h
    rfl
  rw [if_neg h2] at h
  by_cases h3 : rq.userId ∈ t.registeredUsers
  · rw [if_pos h3] at h
    cases h
    rfl
  rw [if_neg h3] at h
  rcases hF : rq.freeFireId with _ | raw
  all_goals simp only [hF] at h
  · cases h
    rfl
  by_cases h4 : jsTrim raw = ""
  · rw [if_pos h4] at h
    cases h
    rfl
  rw [if_neg h4] at h
  by_cases h5 : rq.termsAccepted = false
  · rw [if_pos h5] at h
    cases h
    rfl
  rw [if_neg h5] at h
  by_cases h6 : ¬ isNumericString (jsTrim raw)
  · rw [if_pos h6] at h
    cases h
    rfl
  rw [if_neg h6] at h
  by_cases h7 : requiresTeamSel t ∧
      ¬ (rq.teamSelection = some "team_a" ∨ rq.teamSelection = some "team_b")
  · rw [if_pos h7] at h
    cases h
    rfl
  rw [if_neg h7] at h
  rcases hU : findById db.users rq.userId with _ | u
  all_goals simp only [hU] at h
  · cases h
    rfl
  cases hS : computeSplit u.depositAmount u.winningAmount t.entryFee with
  | insufficientFunds n hv =>
    simp only [hS] at h
    cases h
    rfl
  | balanceCalculationError =>
    simp only [hS] at h
    cases h
    rfl
  | ok s =>
    simp only [hS] at h
    cases h

/-- C1 counterexample: in `dbC1`, user u2 (balances 30/20) registers for
tournament t1 (fee 40) with a Free Fire id another user already used in t1,
so persisting the Registration record fails with the uniqueness violation.
The call returns the error, but the stored balances of u2 are (0, 10), not
the pre-call (30, 20): the deduction is not rolled back, refuting the claim
that the balances are restored before returning. -/
theorem claim_C1_counterexample :
    (register dbC1 rqC1 true).2 = .alreadyRegisteredDuplicate ∧
    findById dbC1.users "u2" = some (mkUser 30 20) ∧
    findById (register dbC1 rqC1 true).1.users "u2" = some (mkUser 0 10) ∧
    mkUser 0 10 ≠ mkUser 30 20 := by decide

/-- C1 amended: when every check of the read phase passes but persisting the
Registration record fails with a uniqueness violation, the call returns the
duplicate error while the stored balances of the user remain the deducted ones
(pre-call balances minus the computed split); no registration record is
added and the tournament is untouched — no compensating rollback occurs. -/
theorem claim_C1_amended (db : DB) (rq : RegRequest) (txSaveOk : Bool)
    (t : Tournament) (u : User) (h : RegOk db rq t u)
    (hconf : regSaveConflict db.registrations rq.userId rq.tournamentId (rqFfid rq) = true) :
    ∃ db', register db rq txSaveOk = (db', .alreadyRegisteredDuplicate) ∧
      findById db'.users rq.userId =
        some (userAfterSplit u (splitOf u.depositAmount u.winningAmount t.entryFee)) ∧
      db'.registrations = db.registrations ∧
      db'.tournaments = db.tournaments := by
  have hr := registerReads_ok h
  have hreg : register db rq txSaveOk =
      registerWrites db ⟨rq.tournamentId, t, rq.userId, u, rqFfid rq, requiresTeamSel t,
        rq.teamSelection, splitOf u.depositAmount u.winningAmount t.entryFee⟩ txSaveOk := by
    unfold register
    rw [hr]
  have hw := registerWrites_conflict db
    ⟨rq.tournamentId, t, rq.userId, u, rqFfid rq, requiresTeamSel t, rq.teamSelection,
      splitOf u.depositAmount u.winningAmount t.entryFee⟩ txSaveOk hconf
  refine ⟨_, by rw [hreg, hw], ?_, ?_, ?_⟩
  · rw [registerMidDB_users]
    exact findById_saveById_self _ _ _ _ h.2.2.2.2.2.1
  · exact registerMidDB_registrations db _ txSaveOk
  · exact registerMidDB_tournaments db _ txSaveOk

/-- Witness for the amended C1 at the concrete scenario `dbC1`. -/
theorem claim_C1_amended_witness :
    ∃ db', register dbC1 rqC1 true = (db', .alreadyRegisteredDuplicate) ∧
      findById db'.users rqC1.userId =
        some (userAfterSplit (mkUser 30 20) (splitOf 30 20 40)) ∧
      db'.registrations = dbC1.registrations ∧
      db'.tournaments = dbC1.tournaments :=
  claim_C1_amended dbC1 rqC1 true (mkTournament "upcoming" (some "1vs1") 40 10 1 ["u1"])
    (mkUser 30 20) (by decide) (by decide)

/-- C6: when the read phase succeeds (tournament and user found, checks
passed, balance deducted) and no registration-uniqueness conflict exists,
a register call whose ledger append fails (`txSaveOk = false`) still
completes successfully: the success payload is returned, the registration
record is persisted, the tournament occupancy is incremented, and the
ledger is left unchanged. -/
theorem claim_C6 (db : DB) (rq : RegRequest) (t : Tournament) (u : User)
    (h : RegOk db rq t u)
    (hconf : regSaveConflict db.registrations rq.userId rq.tournamentId (rqFfid rq) = false) :
    ∃ db', register db rq false =
        (db', .success (splitOf u.depositAmount u.winningAmount t.entryFee).fromDeposit
          (splitOf u.depositAmount u.winningAmount t.entryFee).fromWinning
          ((splitOf u.depositAmount u.winningAmount t.entryFee).depositAfter
            + (splitOf u.depositAmount u.winningAmount t.entryFee).winningAfter)
          db.registrations.length
          (if requiresTeamSel t then rq.teamSelection else none)) ∧
      db'.transactions = db.transactions ∧
      db'.registrations = db.registrations ++ [regRecordOf rq t u] ∧
      findById db'.tournaments rq.tournamentId = some (tournamentAfterReg t rq.userId) := by
  obtain ⟨db', hreg, hu, ht, hregs, htx⟩ := register_success false h hconf
  refine ⟨db', hreg, htx rfl, hregs, ?_⟩
  rw [ht]
  exact findById_saveById_self _ _ _ _ h.1

/-- Witness for C6 at the concrete scenario `dbReg` (balances 30/20, fee
40): the call succeeds with split (30, 10) and appends no ledger entry. -/
theorem claim_C6_witness :
    ∃ db', register dbReg rqReg false =
        (db', .success (splitOf 30 20 40).fromDeposit (splitOf 30 20 40).fromWinning
          ((splitOf 30 20 40).depositAfter + (splitOf 30 20 40).winningAfter)
          dbReg.registrations.length
          (if requiresTeamSel (mkTournament "upcoming" (some "1vs1") 40 10 0 [])
            then rqReg.teamSelection else none)) ∧
      db'.transactions = dbReg.transactions ∧
      db'.registrations = dbReg.registrations ++
        [regRecordOf rqReg (mkTournament "upcoming" (some "1vs1") 40 10 0 []) (mkUser 30 20)] ∧
      findById db'.tournaments rqReg.tournamentId =
        some (tournamentAfterReg (mkTournament "upcoming" (some "1vs1") 40 10 0 []) rqReg.userId) :=
  claim_C6 dbReg rqReg (mkTournament "upcoming" (some "1vs1") 40 10 0 []) (mkUser 30 20)
    (by decide) (by decide)

/-- C10: every register call that succeeds for a tournament whose team size
is not a multi-member value stores a registration record whose
`teamSelection` is null and answers with a null `teamAssigned`, even when
the request supplied a team selection. -/
theorem claim_C10 (db : DB) (rq : RegRequest) (txSaveOk : Bool) (t : Tournament)
    (db' : DB) (fd fw nb : ℤ) (rid : Nat) (ta : Option String)
    (hT : findById db.tournaments rq.tournamentId = some t)
    (hteam : requiresTeamSel t = false)
    (hreg : register db rq txSaveOk = (db', .success fd fw nb rid ta)) :
    ta = none ∧
    ∃ reg, db'.registrations = db.registrations ++ [reg] ∧ reg.teamSelection = none := by
  cases hrr : registerReads db rq with
  | error e =>
    rw [register_of_reads_error txSaveOk hrr] at hreg
    injection hreg with h1 h2
    have := registerReads_error_not_success hrr
    rw [h2] at this
    simp [RegResponse.isSuccess] at this
  | ok snap =>
    obtain ⟨hk, hTs, huid, hUs, hrt, hts, _⟩ := registerReads_ok_inv hrr
    have hsnapT : snap.tournament = t := by
      rw [hTs] at hT
      injection hT
    have hreqf : snap.requiresTeam = false := by
      rw [hrt, hsnapT, hteam]
    have hw : registerWrites db snap txSaveOk = (db', .success fd fw nb rid ta) := by
      rw [← hreg]
      unfold register
      rw [hrr]
    by_cases hc : regSaveConflict db.registrations snap.userId snap.tournamentKey snap.freeFireId = true
    · rw [registerWrites_conflict db snap txSaveOk hc] at hw
      injection hw with hw1 hw2
      cases hw2
    · rw [registerWrites_no_conflict db snap txSaveOk (by simpa using hc)] at hw
      injection hw with hw1 hw2
      injection hw2 with e1 e2 e3 e4 e5
      constructor
      · rw [← e5, hreqf]
        rfl
      · refine ⟨regRecordOfSnap snap, ?_, ?_⟩
        · rw [← hw1]
          rw [registerMidDB_registrations]
        · unfold regRecordOfSnap
          rw [hreqf]
          rfl

/-- Witness for C4: the closed-tournament rejection at the concrete
fixture. -/
theorem claim_C4_witness :
    register dbC4 rqC4 true = (dbC4, .registrationClosed) :=
  (claim_C4 dbC4 rqC4 true (mkTournament "active" (some "1vs1") 10 10 0 []) (by decide)).1
    (by decide)

/-- Witness for C10: the concrete solo-tournament registration that supplied
team_a; the stored record and the response both carry a null selection. -/
theorem claim_C10_witness :
    (none : Option String) = none ∧
    ∃ reg, (register dbReg rqReg true).1.registrations = dbReg.registrations ++ [reg] ∧
      reg.teamSelection = none :=
  claim_C10 dbReg rqReg true (mkTournament "upcoming" (some "1vs1") 40 10 0 [])
    (register dbReg rqReg true).1 30 10 10 0 none (by decide) (by decide) (by decide)

theorem mem_saveById {α : Type} {l : List (String × α)} {k : String} {v : α} {p : String × α}
    (hp : p ∈ saveById l k v) : p = (k, v) ∨ p ∈ l := by
  induction l with
  | nil => simp [saveById] at hp
  | cons q qs ih =>
    by_cases hk : q.1 = k
    · simp only [saveById, if_pos hk] at hp
      rcases List.mem_cons.mp hp with h | h
      · exact Or.inl h
      · exact Or.inr (List.mem_cons_of_mem _ h)
    · simp only [saveById, if_neg hk] at hp
      rcases List.mem_cons.mp hp with h | h
      · exact Or.inr (h ▸ List.mem_cons_self _ _)
      · rcases ih h with h' | h'
        · exact Or.inl h'
        · exact Or.inr (List.mem_cons_of_mem _ h')

theorem nonneg_saveById {l : List (UserId × User)} {k : UserId} {v : User}
    (hl : ∀ p ∈ l, 0 ≤ p.2.depositAmount ∧ 0 ≤ p.2.winningAmount)
    (hv : 0 ≤ v.depositAmount ∧ 0 ≤ v.winningAmount) :
    ∀ p ∈ saveById l k v, 0 ≤ p.2.depositAmount ∧ 0 ≤ p.2.winningAmount := by
  intro p hp
  rcases mem_saveById hp with h | h
  · cases h
    exact hv
  · exact hl p h

theorem balancesNonneg_of_users {db2 : DB} {l : List (UserId × User)} (h : db2.users = l)
    (hb : ∀ p ∈ l, 0 ≤ p.2.depositAmount ∧ 0 ≤ p.2.winningAmount) : BalancesNonneg db2 := by
  unfold BalancesNonneg
  rw [h]
  exact hb

theorem computeSplit_ok_nonneg {d w fee : ℤ} {s : Split} (hd : 0 ≤ d) (hw : 0 ≤ w)
    (h : computeSplit d w fee = .ok s) : 0 ≤ s.depositAfter ∧ 0 ≤ s.winningAfter := by
  by_cases h1 : d + w < fee
  · rw [computeSplit_insufficient h1] at h
    cases h
  · have hle : fee ≤ d + w := not_lt.mp h1
    rw [computeSplit_of_sufficient hle] at h
    injection h with h2
    subst h2
    unfold splitOf
    by_cases h2 : d ≥ fee
    · rw [if_pos h2]
      exact ⟨by dsimp only; linarith, by dsimp only; linarith⟩
    · rw [if_neg h2]
      push_neg at h2
      exact ⟨by dsimp only; linarith, by dsimp only; linarith⟩

theorem register_users_cases (db : DB) (rq : RegRequest) (txSaveOk : Bool) :
    (register db rq txSaveOk).1.users = db.users ∨
    ∃ snap, registerReads db rq = .ok snap ∧
      (register db rq txSaveOk).1.users
        = saveById db.users snap.userId (userAfterSplit snap.user snap.split) := by
  cases hrr : registerReads db rq with
  | error e =>
    left
    rw [register_of_reads_error txSaveOk hrr]
  | ok snap =>
    right
    refine ⟨snap, rfl, ?_⟩
    have hreg : register db rq txSaveOk = registerWrites db snap txSaveOk := by
      unfold register
      rw [hrr]
    rw [hreg]
    by_cases hc : regSaveConflict db.registrations snap.userId snap.tournamentKey snap.freeFireId = true
    · rw [registerWrites_conflict db snap txSaveOk hc]
      exact registerMidDB_users db snap txSaveOk
    · rw [registerWrites_no_conflict db snap txSaveOk (by simpa using hc)]
      exact registerMidDB_users db snap txSaveOk

theorem awardOne_nonneg (db : DB) (tournamentId : TId) (tournamentIdString : String)
    (w : Winner) (h : BalancesNonneg db) (hw : 0 ≤ w.amount) :
    BalancesNonneg (awardOne db tournamentId tournamentIdString w).1 := by
  unfold awardOne
  cases hU : findById db.users w.userId with
  | none => exact h
  | some u =>
    dsimp only
    have hu := h (w.userId, u) (mem_of_findById hU)
    refine balancesNonneg_of_users (logTransaction_users _ w.userId "winning" w.amount _ _ _ _) ?_
    intro p hp
    have hp' : p ∈ saveById db.users w.userId
        { u with winningAmount := u.winningAmount + w.amount } := hp
    refine nonneg_saveById h ⟨?_, ?_⟩ p hp'
    · dsimp only
      dsimp only at hu
      linarith [hu.1]
    · dsimp only
      dsimp only at hu
      linarith [hu.2]

theorem awardAll_nonneg (winners : List Winner) :
    ∀ (db : DB) (tournamentId : TId) (tournamentIdString : String),
    BalancesNonneg db → (∀ w ∈ winners, 0 ≤ w.amount) →
    BalancesNonneg (awardAll db tournamentId tournamentIdString winners).1 := by
  induction winners with
  | nil =>
    intro db tid tstr h _
    exact h
  | cons w ws ih =>
    intro db tid tstr h hws
    simp only [awardAll]
    exact ih _ _ _ (awardOne_nonneg db tid tstr w h (hws w (List.mem_cons_self _ _)))
      (fun w' hw' => hws w' (List.mem_cons_of_mem _ hw'))

theorem adminTransaction_nonneg (db : DB) (userId : UserId) (type : String) (amount : ℤ)
    (description reference referenceType : String) (metadata : TxMeta)
    (h : BalancesNonneg db)
    (ha : (type = "deposit" ∨ type = "winning") → 0 ≤ amount) :
    BalancesNonneg (adminTransaction db userId type amount
      description reference referenceType metadata).1 := by
  unfold adminTransaction
  by_cases hm : userId = "" ∨ type = "" ∨ amount = 0 ∨ description = "" ∨ reference = "" ∨
      referenceType = ""
  · rw [if_pos hm]
    exact h
  rw [if_neg hm]
  by_cases hv : ¬ (type = "deposit" ∨ type = "winning" ∨ type = "entry_fee" ∨ type = "withdrawal")
  · rw [if_pos hv]
    exact h
  rw [if_neg hv]
  cases hU : findById db.users userId with
  | none => exact h
  | some u =>
    dsimp only
    have hu := h (userId, u) (mem_of_findById hU)
    by_cases hd : type = "deposit"
    · rw [if_pos hd]
      refine balancesNonneg_of_users (logTransaction_users _ userId type amount
        description reference referenceType metadata) ?_
      intro p hp
      have hp' : p ∈ saveById db.users userId
          { u with depositAmount := u.depositAmount + amount } := hp
      have ham := ha (Or.inl hd)
      refine nonneg_saveById h ⟨?_, ?_⟩ p hp'
      · dsimp only
        dsimp only at hu
        linarith [hu.1]
      · dsimp only
        dsimp only at hu
        linarith [hu.2]
    rw [if_neg hd]
    by_cases hw : type = "winning"
    · rw [if_pos hw]
      refine balancesNonneg_of_users (logTransaction_users _ userId type amount
        description reference referenceType metadata) ?_
      intro p hp
      have hp' : p ∈ saveById db.users userId
          { u with winningAmount := u.winningAmount + amount } := hp
      have ham := ha (Or.inr hw)
      refine nonneg_saveById h ⟨?_, ?_⟩ p hp'
      · dsimp only
        dsimp only at hu
        linarith [hu.1]
      · dsimp only
        dsimp only at hu
        linarith [hu.2]
    rw [if_neg hw]
    by_cases hb : u.depositAmount + u.winningAmount < |amount|
    · rw [if_pos hb]
      exact h
    rw [if_neg hb]
    by_cases hdep : u.depositAmount ≥ |amount|
    · rw [if_pos hdep]
      refine balancesNonneg_of_users (logTransaction_users _ userId type (-|amount|)
        description reference referenceType metadata) ?_
      intro p hp
      have hp' : p ∈ saveById db.users userId
          { u with depositAmount := u.depositAmount - |amount| } := hp
      refine nonneg_saveById h ⟨?_, ?_⟩ p hp'
      · dsimp only
        linarith
      · dsimp only
        dsimp only at hu
        linarith [hu.2]
    · rw [if_neg hdep]
      refine balancesNonneg_of_users (logTransaction_users _ userId type (-|amount|)
        description reference referenceType metadata) ?_
      intro p hp
      have hp' : p ∈ saveById db.users userId
          { u with depositAmount := 0,
                   winningAmount := u.winningAmount - (|amount| - u.depositAmount) } := hp
      push_neg at hb
      refine nonneg_saveById h ⟨?_, ?_⟩ p hp'
      · dsimp only
        exact le_refl 0
      · dsimp only
        dsimp only at hu
        linarith [hu.1]

/-- C5 counterexample: the award endpoint accepts a winner entry with a
negative amount and drives the winningBalance of the user below zero, so it is
not true that every accepted input of the three balance-mutating operations
preserves non-negativity of both sub-balances. -/
theorem claim_C5_counterexample :
    BalancesNonneg dbC5 ∧
    (awardWinnings dbC5 "t5" [⟨"w1", -5, 1⟩]).2 =
      .processed [.success "w1" (-5) (-5) (-5)] ∧
    ¬ BalancesNonneg (awardWinnings dbC5 "t5" [⟨"w1", -5, 1⟩]).1 := by decide

/-- C5 amended: the registration deduction preserves non-negativity of both
sub-balances unconditionally; the award credit preserves it provided every
winner amount is non-negative; the manual admin transaction preserves it
provided the amount is non-negative when the type is a credit ("deposit" or
"winning") — the deducting types are guarded by the sufficiency check and
preserve it for every accepted amount. -/
theorem claim_C5_amended :
    (∀ (db : DB) (rq : RegRequest) (txSaveOk : Bool),
      BalancesNonneg db → BalancesNonneg (register db rq txSaveOk).1) ∧
    (∀ (db : DB) (tournamentId : TId) (winners : List Winner),
      BalancesNonneg db → (∀ w ∈ winners, 0 ≤ w.amount) →
      BalancesNonneg (awardWinnings db tournamentId winners).1) ∧
    (∀ (db : DB) (userId : UserId) (type : String) (amount : ℤ)
      (description reference referenceType : String) (metadata : TxMeta),
      BalancesNonneg db → ((type = "deposit" ∨ type = "winning") → 0 ≤ amount) →
      BalancesNonneg (adminTransaction db userId type amount
        description reference referenceType metadata).1) := by
  refine ⟨?_, ?_, ?_⟩
  · intro db rq txSaveOk h
    rcases register_users_cases db rq txSaveOk with hu | ⟨snap, hrr, hu⟩
    · exact balancesNonneg_of_users hu h
    · refine balancesNonneg_of_users hu ?_
      obtain ⟨_, _, _, hUs, _, _, hS⟩ := registerReads_ok_inv hrr
      have husr := h (rq.userId, snap.user) (mem_of_findById hUs)
      have hnn := computeSplit_ok_nonneg husr.1 husr.2 hS
      exact nonneg_saveById h ⟨hnn.1, hnn.2⟩
  · intro db tid winners h hws
    unfold awardWinnings
    by_cases ht : tid = ""
    · rw [if_pos ht]
      exact h
    rw [if_neg ht]
    cases hT : findById db.tournaments tid with
    | none => exact h
    | some t =>
      dsimp only
      by_cases hs : t.status ≠ "completed"
      · rw [if_pos hs]
        exact h
      · rw [if_neg hs]
        exact awardAll_nonneg winners db tid t.tournamentId h hws
  · exact adminTransaction_nonneg

/-- Witness for the amended C5 at concrete runs of all three operations. -/
theorem claim_C5_amended_witness :
    BalancesNonneg (register dbReg rqReg true).1 ∧
    BalancesNonneg (awardWinnings dbC7 "t7" winnersC7).1 ∧
    BalancesNonneg (adminTransaction dbAdmin "u1" "deposit" 7 "topup" "r1" "payment_id" {}).1 :=
  ⟨claim_C5_amended.1 dbReg rqReg true (by decide),
   claim_C5_amended.2.1 dbC7 "t7" winnersC7 (by decide) (by decide),
   claim_C5_amended.2.2 dbAdmin "u1" "deposit" 7 "topup" "r1" "payment_id" {} (by decide)
     (fun _ => by decide)⟩

theorem logTransaction_key_mem (db : DB) (userId : UserId) (type : String) (amount : ℤ)
    (description reference referenceType : String) (metadata : TxMeta) :
    ∃ tx ∈ (logTransaction db userId type amount
        description reference referenceType metadata).2.transactions,
      tx.userId = userId ∧ tx.reference = reference ∧ tx.referenceType = referenceType := by
  unfold logTransaction
  cases hf : db.transactions.find? (fun tx => txKeyMatch tx userId reference referenceType) with
  | some e =>
    dsimp only
    have hpe : txKeyMatch e userId reference referenceType = true := by
      simpa using List.find?_some hf
    refine ⟨e, List.mem_of_find?_eq_some hf, ?_⟩
    unfold txKeyMatch at hpe
    exact of_decide_eq_true hpe
  | none =>
    dsimp only
    exact ⟨_, List.mem_append_right _ (List.mem_singleton.mpr rfl), rfl, rfl, rfl⟩

theorem awardOne_success {db : DB} {w : Winner} {u : User} (tournamentId : TId)
    (tournamentIdString : String) (hU : findById db.users w.userId = some u) :
    ∃ db', awardOne db tournamentId tournamentIdString w =
        (db', .success w.userId w.amount (u.winningAmount + w.amount)
          (u.depositAmount + (u.winningAmount + w.amount))) ∧
      findById db'.users w.userId
        = some { u with winningAmount := u.winningAmount + w.amount } ∧
      ∃ tx ∈ db'.transactions, tx.userId = w.userId ∧
        tx.reference = tournamentId ++ "_" ++ w.userId ++ "_" ++ toString w.position ∧
        tx.referenceType = "tournament_id" := by
  unfold awardOne
  simp only [hU]
  refine ⟨_, rfl, ?_, ?_⟩
  · rw [logTransaction_users]
    exact findById_saveById_self _ _ _ _ hU
  · exact logTransaction_key_mem _ _ _ _ _ _ _ _

theorem awardAll_length (winners : List Winner) :
    ∀ (db : DB) (tournamentId : TId) (tournamentIdString : String),
    (awardAll db tournamentId tournamentIdString winners).2.length = winners.length := by
  induction winners with
  | nil =>
    intro db tid tstr
    rfl
  | cons w ws ih =>
    intro db tid tstr
    simp only [awardAll, List.length_cons]
    rw [ih]

/-- C7: the award operation fails (state unchanged) when the loaded
tournament is not completed; when it is completed it returns one result per
winner (n results for n winners, so the failure of one winner never aborts the
rest); a winner whose user is missing yields a per-winner not-found result
with the state unchanged; and a winner whose user exists gets exactly that
amount of that winner credited to winningBalance, with a ledger entry keyed
(tournamentId, userId, position). -/
theorem claim_C7 :
    (∀ (db : DB) (tournamentId : TId) (winners : List Winner) (t : Tournament),
      tournamentId ≠ "" → findById db.tournaments tournamentId = some t →
      t.status ≠ "completed" →
      awardWinnings db tournamentId winners = (db, .notCompleted)) ∧
    (∀ (db : DB) (tournamentId : TId) (winners : List Winner) (t : Tournament),
      tournamentId ≠ "" → findById db.tournaments tournamentId = some t →
      t.status = "completed" →
      ∃ db' results, awardWinnings db tournamentId winners = (db', .processed results) ∧
        results.length = winners.length) ∧
    (∀ (db : DB) (tournamentId : TId) (tournamentIdString : String) (w : Winner),
      findById db.users w.userId = none →
      awardOne db tournamentId tournamentIdString w = (db, .notFound w.userId)) ∧
    (∀ (db : DB) (tournamentId : TId) (tournamentIdString : String) (w : Winner) (u : User),
      findById db.users w.userId = some u →
      ∃ db', awardOne db tournamentId tournamentIdString w =
          (db', .success w.userId w.amount (u.winningAmount + w.amount)
            (u.depositAmount + (u.winningAmount + w.amount))) ∧
        findById db'.users w.userId
          = some { u with winningAmount := u.winningAmount + w.amount } ∧
        ∃ tx ∈ db'.transactions, tx.userId = w.userId ∧
          tx.reference = tournamentId ++ "_" ++ w.userId ++ "_" ++ toString w.position ∧
          tx.referenceType = "tournament_id") := by
  refine ⟨?_, ?_, ?_, ?_⟩
  · intro db tid winners t ht hT hs
    unfold awardWinnings
    rw [if_neg ht]
    simp only [hT]
    rw [if_pos hs]
  · intro db tid winners t ht hT hs
    unfold awardWinnings
    rw [if_neg ht]
    simp only [hT]
    rw [if_neg (by simp [hs])]
    exact ⟨_, _, rfl, awardAll_length winners db tid t.tournamentId⟩
  · intro db tid tstr w hU
    unfold awardOne
    simp only [hU]
  · intro db tid tstr w u hU
    exact awardOne_success tid tstr hU

/-- Witness for C7: the specification scenario of three winners whose second
entry references a nonexistent user, against a completed tournament. -/
theorem claim_C7_witness :
    (∃ db' results, awardWinnings dbC7 "t7" winnersC7 = (db', .processed results) ∧
      results.length = winnersC7.length) ∧
    awardOne dbC7 "t7" "FF2026" ⟨"wX", 50, 2⟩ = (dbC7, .notFound "wX") :=
  ⟨claim_C7.2.1 dbC7 "t7" winnersC7 (mkTournament "completed" (some "1vs1") 10 48 0 [])
      (by decide) (by decide) (by decide),
   claim_C7.2.2.1 dbC7 "t7" "FF2026" ⟨"wX", 50, 2⟩ (by decide)⟩

/-- C8 counterexample: a register call whose Free Fire id is "0" (a digits
string but not a positive integer) and which supplies a team selection for
a solo (1vs1) tournament is accepted, not rejected — refuting the claim
that inputs are rejected unless the id is a positive integer literal and a
selection is supplied if and only if the team size is multi-member. -/
theorem claim_C8_counterexample :
    rqC8.freeFireId = some "0" ∧
    rqC8.teamSelection = some "team_a" ∧
    requiresTeamSel (mkTournament "upcoming" (some "1vs1") 10 10 0 []) = false ∧
    (register dbC8 rqC8 true).2.isSuccess = true := by decide

/-- C8 amended: with the tournament loaded, upcoming, not full, and the
caller not yet registered, the input is rejected with the state unchanged
when the Free Fire id is absent or trims to empty; when (id present and
nonempty) terms are not accepted; when (terms accepted) the trimmed id is
not digits-only; and when (id digits-only) the team size of the tournament is a
multi-member value but the supplied selection is not team_a or team_b.  A
zero id ("0") counts as digits-only and a selection supplied for a
non-multi team size is not rejected (it is discarded, see C10). -/
theorem claim_C8_amended (db : DB) (rq : RegRequest) (txSaveOk : Bool) (t : Tournament)
    (hT : findById db.tournaments rq.tournamentId = some t)
    (hst : t.status = "upcoming") (hfull : t.registeredPlayers < t.maxSlots)
    (hmem : rq.userId ∉ t.registeredUsers) :
    ((rq.freeFireId = none ∨ rqFfid rq = "") →
      register db rq txSaveOk = (db, .freeFireIdRequired)) ∧
    (∀ raw, rq.freeFireId = some raw → jsTrim raw ≠ "" → rq.termsAccepted = false →
      register db rq txSaveOk = (db, .termsRequired)) ∧
    (∀ raw, rq.freeFireId = some raw → jsTrim raw ≠ "" → rq.termsAccepted = true →
      isNumericString (jsTrim raw) = false →
      register db rq txSaveOk = (db, .freeFireIdNotNumeric)) ∧
    (∀ raw, rq.freeFireId = some raw → jsTrim raw ≠ "" → rq.termsAccepted = true →
      isNumericString (jsTrim raw) = true → requiresTeamSel t = true →
      ¬ (rq.teamSelection = some "team_a" ∨ rq.teamSelection = some "team_b") →
      register db rq txSaveOk = (db, .teamSelectionRequired)) := by
  refine ⟨?_, ?_, ?_, ?_⟩
  · intro hor
    apply register_of_reads_error txSaveOk
    unfold registerReads
    simp only [hT]
    rw [if_neg (by simp [hst]), if_neg (by omega), if_neg hmem]
    rcases hF : rq.freeFireId with _ | raw
    · rfl
    · have htr : jsTrim raw = "" := by
        rcases hor with hnone | hff
        · rw [hF] at hnone
          cases hnone
        · simp only [rqFfid, hF, Option.getD_some] at hff
          exact hff
      simp only []
      rw [if_pos htr]
  · intro raw hF htrim hterms
    apply register_of_reads_error txSaveOk
    unfold registerReads
    simp only [hT, hF]
    rw [if_neg (by simp [hst]), if_neg (by omega), if_neg hmem, if_neg htrim, if_pos hterms]
  · intro raw hF htrim hterms hnum
    apply register_of_reads_error txSaveOk
    unfold registerReads
    simp only [hT, hF]
    rw [if_neg (by simp [hst]), if_neg (by omega), if_neg hmem, if_neg htrim,
      if_neg (by simp [hterms]), if_pos (by simp [hnum])]
  · intro raw hF htrim hterms hnum hreq hsel
    apply register_of_reads_error txSaveOk
    unfold registerReads
    simp only [hT, hF]
    rw [if_neg (by simp [hst]), if_neg (by omega), if_neg hmem, if_neg htrim,
      if_neg (by simp [hterms]), if_neg (by simp [hnum]), if_pos ⟨hreq, hsel⟩]

/-- Witness for the amended C8: the concrete request with terms not
accepted is rejected with the terms error and no state change. -/
theorem claim_C8_amended_witness :
    register dbC8 rqC8w true = (dbC8, .termsRequired) :=
  (claim_C8_amended dbC8 rqC8w true (mkTournament "upcoming" (some "1vs1") 10 10 0 [])
      (by decide) (by decide) (by decide) (by decide)).2.1 "123" (by decide) (by decide)
    (by decide)

/-- C9 counterexample: two distinct users race for the single free seat of
tournament t9 (maxSlots = 1).  In the interleaving where both handlers
complete their reads before either writes, both calls are admitted — not
"exactly maxSlots admitted and the rest rejected with the full error" — so
the check-then-act of the handler is not atomic. -/
theorem claim_C9_counterexample :
    rqC9a.userId ≠ rqC9b.userId ∧
    findById dbC9.tournaments "t9" = some (mkTournament "upcoming" (some "1vs1") 10 1 0 []) ∧
    (mkTournament "upcoming" (some "1vs1") 10 1 0 []).maxSlots = 1 ∧
    (registerPair dbC9 rqC9a rqC9b).2.1.isSuccess = true ∧
    (registerPair dbC9 rqC9a rqC9b).2.2.isSuccess = true := by decide

theorem registerAll_append (l1 l2 : List RegRequest) :
    ∀ (db : DB) (txSaveOk : Bool),
    registerAll db (l1 ++ l2) txSaveOk =
      ((registerAll (registerAll db l1 txSaveOk).1 l2 txSaveOk).1,
       (registerAll db l1 txSaveOk).2 ++ (registerAll (registerAll db l1 txSaveOk).1 l2 txSaveOk).2) := by
  induction l1 with
  | nil =>
    intro db txSaveOk
    rfl
  | cons rq rest ih =>
    intro db txSaveOk
    simp only [List.cons_append, registerAll, List.append_eq, ih, List.append_assoc]

theorem registerAll_fill (rqs : List RegRequest) :
    ∀ (db : DB) (tid : TId) (t : Tournament) (txSaveOk : Bool),
    findById db.tournaments tid = some t →
    t.status = "upcoming" →
    rqs.length + t.registeredPlayers ≤ t.maxSlots →
    (∀ rq ∈ rqs, rq.tournamentId = tid) →
    (∀ rq ∈ rqs, inputOk t rq) →
    (∀ rq ∈ rqs, ∃ u, findById db.users rq.userId = some u ∧
      t.entryFee ≤ u.depositAmount + u.winningAmount) →
    (∀ rq ∈ rqs, rq.userId ∉ t.registeredUsers) →
    (rqs.map RegRequest.userId).Nodup →
    (rqs.map rqFfid).Nodup →
    (∀ r ∈ db.registrations, r.tournamentId = tid →
      r.userId ∉ rqs.map RegRequest.userId ∧ r.freeFireId ∉ rqs.map rqFfid) →
    (registerAll db rqs txSaveOk).2.length = rqs.length ∧
    (∀ resp ∈ (registerAll db rqs txSaveOk).2, resp.isSuccess = true) ∧
    findById (registerAll db rqs txSaveOk).1.tournaments tid = some
      { t with registeredUsers := t.registeredUsers ++ rqs.map RegRequest.userId,
               registeredPlayers := t.registeredPlayers + rqs.length } := by
  induction rqs with
  | nil =>
    intro db tid t txSaveOk hT hst hlen h4 h5 h6 h7 hnodupU hnodupF hreg
    refine ⟨rfl, ?_, ?_⟩
    · intro r hr
      simp only [registerAll] at hr
      cases hr
    · simpa using hT
  | cons rq rest ih =>
    intro db tid t txSaveOk hT hst hlen h4 h5 h6 h7 hnodupU hnodupF hreg
    have htid : rq.tournamentId = tid := h4 rq (List.mem_cons_self _ _)
    obtain ⟨u, hU, hbal⟩ := h6 rq (List.mem_cons_self _ _)
    have hUnodup := List.nodup_cons.mp hnodupU
    have hFnodup := List.nodup_cons.mp hnodupF
    have hRegOk : RegOk db rq t u := by
      refine ⟨?_, hst, by simp at hlen; omega, h7 rq (List.mem_cons_self _ _),
        h5 rq (List.mem_cons_self _ _), hU, hbal⟩
      rw [htid]
      exact hT
    have hconf : regSaveConflict db.registrations rq.userId rq.tournamentId (rqFfid rq) = false := by
      unfold regSaveConflict
      rw [List.any_eq_false]
      intro r hr
      simp only [decide_eq_true_eq, not_or, not_and]
      have hx : r.tournamentId = tid →
          r.userId ∉ List.map RegRequest.userId (rq :: rest) ∧
          r.freeFireId ∉ List.map rqFfid (rq :: rest) := hreg r hr
      constructor
      · intro hru hrt
        rw [htid] at hrt
        have := (hx hrt).1
        simp only [List.map_cons, List.mem_cons, not_or] at this
        exact this.1 hru
      · intro hrt
        rw [htid] at hrt
        have := (hx hrt).2
        simp only [List.map_cons, List.mem_cons, not_or] at this
        intro hrf
        exact this.1 hrf
    obtain ⟨db1, hreg1, hu1, ht1, hregs1, _⟩ := register_success txSaveOk hRegOk hconf
    have hT1 : findById db1.tournaments tid = some (tournamentAfterReg t rq.userId) := by
      rw [ht1, htid]
      exact findById_saveById_self _ _ _ _ hT
    have hUsers1 : ∀ rq' ∈ rest, ∃ u', findById db1.users rq'.userId = some u' ∧
        (tournamentAfterReg t rq.userId).entryFee ≤ u'.depositAmount + u'.winningAmount := by
      intro rq' hm
      obtain ⟨u', hU', hbal'⟩ := h6 rq' (List.mem_cons_of_mem _ hm)
      refine ⟨u', ?_, hbal'⟩
      rw [hu1]
      rw [findById_saveById_ne]
      · exact hU'
      · intro heq
        have : rq.userId ∈ rest.map RegRequest.userId := by
          rw [← heq]
          exact List.mem_map_of_mem _ hm
        exact hUnodup.1 this
    have hmem1 : ∀ rq' ∈ rest, rq'.userId ∉ (tournamentAfterReg t rq.userId).registeredUsers := by
      intro rq' hm
      unfold tournamentAfterReg
      simp only [List.mem_append, List.mem_singleton, not_or]
      refine ⟨h7 rq' (List.mem_cons_of_mem _ hm), ?_⟩
      intro heq
      have : rq'.userId ∈ rest.map RegRequest.userId := List.mem_map_of_mem _ hm
      rw [heq] at this
      exact hUnodup.1 this
    have hreg1inv : ∀ r ∈ db1.registrations, r.tournamentId = tid →
        r.userId ∉ rest.map RegRequest.userId ∧ r.freeFireId ∉ rest.map rqFfid := by
      intro r hr hrt
      rw [hregs1] at hr
      rcases List.mem_append.mp hr with hold | hnew
      · have := hreg r hold hrt
        simp only [List.map_cons, List.mem_cons, not_or] at this
        exact ⟨this.1.2, this.2.2⟩
      · rw [List.mem_singleton.mp hnew]
        exact ⟨hUnodup.1, hFnodup.1⟩
    have ihres := ih db1 tid (tournamentAfterReg t rq.userId) txSaveOk hT1
      (by unfold tournamentAfterReg; exact hst)
      (by unfold tournamentAfterReg; simp at hlen ⊢; omega)
      (fun rq' hm => h4 rq' (List.mem_cons_of_mem _ hm))
      (fun rq' hm => h5 rq' (List.mem_cons_of_mem _ hm))
      hUsers1 hmem1 hUnodup.2 hFnodup.2 hreg1inv
    obtain ⟨ihlen, ihsucc, ihT⟩ := ihres
    have hrw : registerAll db (rq :: rest) txSaveOk
        = ((registerAll db1 rest txSaveOk).1,
           (register db rq txSaveOk).2 :: (registerAll db1 rest txSaveOk).2) := by
      simp only [registerAll]
      rw [hreg1]
    rw [hrw]
    refine ⟨?_, ?_, ?_⟩
    · simp only [List.length_cons, ihlen]
    · intro resp hresp
      rcases List.mem_cons.mp hresp with hh | hh
      · rw [hh, hreg1]
        rfl
      · exact ihsucc resp hh
    · rw [ihT]
      unfold tournamentAfterReg
      simp only [List.map_cons, List.append_assoc, List.singleton_append, List.length_cons]
      rw [Nat.add_assoc, Nat.add_comm 1]

/-- C9 amended: with the interleaved behaviour refuted by the
counterexample, the sequential statement holds: for every upcoming
tournament with all maxSlots seats free, when maxSlots + 1 distinct,
funded, validly-formed requests register one after another, the first
maxSlots calls are all admitted, the final call is rejected with the
tournament-full error, and afterwards registeredPlayers equals maxSlots. -/
theorem claim_C9_amended (db : DB) (tid : TId) (t : Tournament) (txSaveOk : Bool)
    (rqs : List RegRequest) (lastRq : RegRequest)
    (hT : findById db.tournaments tid = some t)
    (hst : t.status = "upcoming") (hru : t.registeredUsers = [])
    (hrp : t.registeredPlayers = 0) (hlen : rqs.length = t.maxSlots)
    (hall : ∀ rq ∈ rqs ++ [lastRq], rq.tournamentId = tid)
    (hinput : ∀ rq ∈ rqs, inputOk t rq)
    (husers : ∀ rq ∈ rqs, ∃ u, findById db.users rq.userId = some u ∧
      t.entryFee ≤ u.depositAmount + u.winningAmount)
    (hnodupU : ((rqs ++ [lastRq]).map RegRequest.userId).Nodup)
    (hnodupF : ((rqs ++ [lastRq]).map rqFfid).Nodup)
    (hregs : ∀ r ∈ db.registrations, r.tournamentId ≠ tid) :
    ∃ db' resps,
      registerAll db (rqs ++ [lastRq]) txSaveOk = (db', resps ++ [.tournamentFull]) ∧
      resps.length = t.maxSlots ∧
      (∀ resp ∈ resps, resp.isSuccess = true) ∧
      ∃ t', findById db'.tournaments tid = some t' ∧ t'.registeredPlayers = t.maxSlots := by
  obtain ⟨hlen2, hsucc, hTfin⟩ := registerAll_fill rqs db tid t txSaveOk hT hst (by omega)
    (fun rq h => hall rq (List.mem_append_left _ h)) hinput husers
    (fun rq h => by rw [hru]; exact List.not_mem_nil _)
    ((List.nodup_append.mp (by rwa [List.map_append] at hnodupU)).1)
    ((List.nodup_append.mp (by rwa [List.map_append] at hnodupF)).1)
    (fun r hr htid' => absurd htid' (hregs r hr))
  have htidlast : lastRq.tournamentId = tid :=
    hall lastRq (List.mem_append_right _ (List.mem_singleton.mpr rfl))
  have hT2 : findById (registerAll db rqs txSaveOk).1.tournaments lastRq.tournamentId
      = some { t with registeredUsers := t.registeredUsers ++ rqs.map RegRequest.userId,
                      registeredPlayers := t.registeredPlayers + rqs.length } := by
    rw [htidlast]
    exact hTfin
  have hfullreads : registerReads (registerAll db rqs txSaveOk).1 lastRq
      = .error .tournamentFull := by
    refine registerReads_full hT2 hst ?_
    show t.maxSlots ≤ t.registeredPlayers + rqs.length
    omega
  have hlast : register (registerAll db rqs txSaveOk).1 lastRq txSaveOk
      = ((registerAll db rqs txSaveOk).1, .tournamentFull) :=
    register_of_reads_error txSaveOk hfullreads
  refine ⟨(registerAll db rqs txSaveOk).1, (registerAll db rqs txSaveOk).2, ?_,
    by rw [hlen2]; exact hlen, hsucc, ?_⟩
  · rw [registerAll_append]
    simp only [registerAll]
    rw [hlast]
  · refine ⟨_, hTfin, ?_⟩
    show t.registeredPlayers + rqs.length = t.maxSlots
    omega

/-- Witness for the amended C9: a two-slot tournament, three distinct
funded users registering sequentially — two admissions, then the full
rejection, with occupancy 2. -/
theorem claim_C9_amended_witness :
    ∃ db' resps,
      registerAll dbC9w ([rqC9a, rqC9b] ++ [rqC9c]) true = (db', resps ++ [.tournamentFull]) ∧
      resps.length = 2 ∧
      (∀ resp ∈ resps, resp.isSuccess = true) ∧
      ∃ t', findById db'.tournaments "t9" = some t' ∧ t'.registeredPlayers = 2 :=
  claim_C9_amended dbC9w "t9" (mkTournament "upcoming" (some "1vs1") 10 2 0 []) true
    [rqC9a, rqC9b] rqC9c (by decide) (by decide) (by decide) (by decide) (by decide)
    (by decide)
    (by decide)
    (by
      intro rq hrq
      rcases List.mem_cons.mp hrq with rfl | hrq'
      · exact ⟨mkUser 10 0, by decide, by decide⟩
      rcases List.mem_cons.mp hrq' with rfl | hrq''
      · exact ⟨mkUser 10 0, by decide, by decide⟩
      cases hrq'')
    (by decide) (by decide) (by decide)
